import Mathlib

/-! Platformer simulation core (`script.js`)

A shallow embedding of the per-frame simulation of `script.js`: the bounding-box
test `collides`, the frame step `update`, the handlers `loseLife`, `resetPlayer`,
`gameOver`, `levelComplete` and the two button handlers (restart, next level).

Conventions of the embedding.

* JavaScript numbers are modelled by exact rationals (`ℚ`) for coordinates,
  velocities, gravity and shake, and by integers (`ℤ`) for the counters
  `lives`, `score`, `currentLevel`, `chaos` and a particle's `life`.
  Arithmetic on them is exact; the rounding of IEEE 754 doubles is modelled for
  the collision test alone (`roundDouble`, `addDouble`, `collidesDouble`).
* The global variables become the fields of `State`; the mutable `levels` array
  is a field too, since `update` writes into the platforms and enemies of the
  active level.
* `Math.random()` is an explicit stream `rnd : ℕ → ℚ` together with the index of
  the next draw, threaded through every function that draws.
* Audio and DOM effects (`playSound`, the overlay screens, `updateUI`) do not
  feed back into the simulation and are left out.
* Reading a property of `undefined` (an out-of-range `levels[currentLevel - 1]`)
  throws in JavaScript; `update` returns `none` there.
-/

namespace MarioGame

/-! ## Constants -/

def CANVAS_WIDTH : ℚ := 800
def CANVAS_HEIGHT : ℚ := 600
def GRAVITY_BASE : ℚ := 1 / 2
def JUMP_FORCE : ℚ := -12
def PLAYER_SPEED : ℚ := 5
def LIVES_START : ℤ := 3

/-! ## Data model -/

/-- The four fields `collides` reads from either argument. -/
structure Rect where
  x : ℚ
  y : ℚ
  width : ℚ
  height : ℚ
  deriving DecidableEq, Repr

/-- The top-level mode: `'playing'`, `'gameOver'`, `'levelComplete'`. -/
inductive GameState where
  | playing
  | gameOver
  | levelComplete
  deriving DecidableEq, Repr

/-- The `player` object. -/
structure Player where
  x : ℚ
  y : ℚ
  width : ℚ
  height : ℚ
  vx : ℚ
  vy : ℚ
  onGround : Bool
  deriving DecidableEq, Repr

/-- A platform record; `vx` and `falling` are optional fields of the object
literal (`none` when the field is absent). -/
structure Platform where
  x : ℚ
  y : ℚ
  width : ℚ
  height : ℚ
  vx : Option ℚ
  falling : Option Bool
  deriving DecidableEq, Repr

/-- An enemy record. -/
structure Enemy where
  x : ℚ
  y : ℚ
  width : ℚ
  height : ℚ
  vx : ℚ
  deriving DecidableEq, Repr

/-- One entry of the `levels` array. -/
structure Level where
  platforms : List Platform
  enemies : List Enemy
  portal : Rect
  gravity : ℚ
  chaos : ℤ
  deriving DecidableEq, Repr

/-- A particle pushed by `createParticles`. -/
structure Particle where
  x : ℚ
  y : ℚ
  vx : ℚ
  vy : ℚ
  life : ℤ
  deriving DecidableEq, Repr

/-- The input flags `leftPressed`, `rightPressed`, `jumpPressed`. -/
structure Input where
  leftPressed : Bool
  rightPressed : Bool
  jumpPressed : Bool
  deriving DecidableEq, Repr

/-- The global variables of the script. -/
structure State where
  gameState : GameState
  currentLevel : ℤ
  lives : ℤ
  score : ℤ
  shake : ℚ
  particles : List Particle
  player : Player
  levels : List Level
  deriving DecidableEq, Repr

def Player.rect (p : Player) : Rect := ⟨p.x, p.y, p.width, p.height⟩
def Platform.rect (p : Platform) : Rect := ⟨p.x, p.y, p.width, p.height⟩
def Enemy.rect (e : Enemy) : Rect := ⟨e.x, e.y, e.width, e.height⟩

/-! ## Collision detection -/

/-- The function `collides(a, b)`, its four sums taken exactly. `collidesDouble`
further down is the same test with the sums rounded as JavaScript rounds them;
the two agree whenever the sums are exact (`collidesDouble_eq_collides`). -/
def collides (a b : Rect) : Bool :=
  decide (a.x < b.x + b.width) && decide (a.x + a.width > b.x) &&
    decide (a.y < b.y + b.height) && decide (a.y + a.height > b.y)

/-! ## The level table and the initial session -/

/-- The `levels` array literal. The six `Math.random()` calls made while the
literal is evaluated (three in level 4, three in level 5) are the draws
`rnd 0 .. rnd 5`. -/
def levels (rnd : ℕ → ℚ) : List Level :=
  [ -- Level 1: Warm Up
    { platforms := [⟨0, 550, 200, 50, none, none⟩, ⟨300, 450, 200, 50, none, none⟩,
        ⟨600, 350, 200, 50, none, none⟩],
      enemies := [⟨400, 400, 32, 32, 1⟩],
      portal := ⟨700, 300, 50, 50⟩,
      gravity := GRAVITY_BASE,
      chaos := 0 },
    -- Level 2: Moving Hell
    { platforms := [⟨0, 550, 200, 50, some 2, none⟩, ⟨300, 450, 200, 50, some (-1), none⟩,
        ⟨600, 350, 200, 50, some 1, none⟩],
      enemies := [⟨400, 400, 32, 32, 2⟩],
      portal := ⟨700, 300, 50, 50⟩,
      gravity := GRAVITY_BASE,
      chaos := 1 },
    -- Level 3: Falling Trap
    { platforms := [⟨0, 550, 200, 50, none, some false⟩, ⟨300, 450, 200, 50, none, some false⟩,
        ⟨600, 350, 200, 50, none, some false⟩],
      enemies := [⟨400, 400, 32, 32, 3⟩],
      portal := ⟨700, 300, 50, 50⟩,
      gravity := GRAVITY_BASE + 1 / 10,
      chaos := 2 },
    -- Level 4: Chaos Mode
    { platforms := [⟨0, 550, 200, 50, some (rnd 0 * 4 - 2), none⟩,
        ⟨300, 450, 200, 50, some (rnd 1 * 4 - 2), none⟩,
        ⟨600, 350, 200, 50, some (rnd 2 * 4 - 2), none⟩],
      enemies := [⟨400, 400, 32, 32, 4⟩, ⟨200, 500, 32, 32, -3⟩],
      portal := ⟨700, 300, 50, 50⟩,
      gravity := GRAVITY_BASE + 2 / 10,
      chaos := 3 },
    -- Level 5: Final Madness
    { platforms := [⟨0, 550, 150, 50, some (rnd 3 * 6 - 3), some false⟩,
        ⟨300, 450, 150, 50, some (rnd 4 * 6 - 3), some false⟩,
        ⟨600, 350, 150, 50, some (rnd 5 * 6 - 3), some false⟩],
      enemies := [⟨400, 400, 32, 32, 5⟩, ⟨200, 500, 32, 32, -4⟩, ⟨500, 300, 32, 32, 3⟩],
      portal := ⟨700, 250, 50, 50⟩,
      gravity := GRAVITY_BASE + 3 / 10,
      chaos := 4 } ]

/-- The values of the globals when the script has been loaded. -/
def initialState (rnd : ℕ → ℚ) : State :=
  { gameState := .playing
    currentLevel := 1
    lives := LIVES_START
    score := 0
    shake := 0
    particles := []
    player := ⟨100, 500, 32, 32, 0, 0, false⟩
    levels := levels rnd }

/-! ## Particles -/

/-- The function `createParticles(x, y, count)`: each pushed particle takes three
draws (for `x`, `vx`, `vy`, in the order of the object literal). The arguments
are the number of particles still to push, the index of the next draw and the
particle list; the result is the new list and the next draw index. -/
def createParticles (rnd : ℕ → ℚ) (x y : ℚ) : ℕ → ℕ → List Particle → List Particle × ℕ
  | 0, n, ps => (ps, n)
  | count + 1, n, ps =>
    createParticles rnd x y count (n + 3)
      (ps ++ [{ x := x + rnd n * 20 - 10, y := y, vx := rnd (n + 1) * 4 - 2,
                vy := rnd (n + 2) * (-4), life := 30 }])

/-- The body of `particles.forEach(p => ...)` in `update`. -/
def stepParticle (p : Particle) : Particle :=
  { p with x := p.x + p.vx, y := p.y + p.vy, life := p.life - 1 }

/-! ## Handlers -/

/-- The function `resetPlayer()`. -/
def resetPlayer (s : State) : State :=
  { s with player := { s.player with x := 100, y := 500, vx := 0, vy := 0 } }

/-- The function `gameOver()` (the DOM writes are left out). -/
def gameOver (s : State) : State :=
  { s with gameState := .gameOver }

/-- The function `levelComplete()`. -/
def levelComplete (s : State) : State :=
  { s with gameState := .levelComplete, score := s.score + 100 * s.currentLevel }

/-- The function `loseLife()`; the second component is the next draw index. -/
def loseLife (rnd : ℕ → ℚ) (n : ℕ) (s : State) : State × ℕ :=
  let s1 : State := { s with lives := s.lives - 1, shake := 10 }
  let cp := createParticles rnd (s1.player.x + s1.player.width / 2)
    (s1.player.y + s1.player.height) 10 n s1.particles
  let s2 : State := { s1 with particles := cp.1 }
  if s2.lives ≤ 0 then (gameOver s2, cp.2) else (resetPlayer s2, cp.2)

/-- The click handler of `restartBtn`. -/
def restart (s : State) : State :=
  let s1 : State := { s with currentLevel := 1, lives := LIVES_START, score := 0 }
  { resetPlayer s1 with gameState := .playing }

/-- The click handler of `nextLevelBtn`. -/
def nextLevel (s : State) : State :=
  if s.currentLevel < 5 then
    { resetPlayer { s with currentLevel := s.currentLevel + 1 } with gameState := .playing }
  else
    gameOver s

/-! ## The frame step -/

/-- The lookup `levels[currentLevel - 1]`: `none` stands for `undefined`. -/
def levelAt (ls : List Level) (currentLevel : ℤ) : Option Level :=
  if 1 ≤ currentLevel then ls.get? (currentLevel - 1).toNat else none

/-- Lines 146-154 of `update`: the player input. -/
def playerInput (inp : Input) (rnd : ℕ → ℚ) (s : State) : State × ℕ :=
  let p0 : Player := { s.player with vx := 0 }
  let p1 : Player := if inp.leftPressed then { p0 with vx := -PLAYER_SPEED } else p0
  let p2 : Player := if inp.rightPressed then { p1 with vx := PLAYER_SPEED } else p1
  if inp.jumpPressed && p2.onGround then
    let p3 : Player := { p2 with vy := JUMP_FORCE, onGround := false }
    let cp := createParticles rnd (p3.x + p3.width / 2) (p3.y + p3.height) 5 0 s.particles
    ({ s with player := p3, particles := cp.1 }, cp.2)
  else
    ({ s with player := p2 }, 0)

/-- Lines 157-159 of `update`: gravity, then position += velocity. -/
def applyGravity (gravity : ℚ) (p : Player) : Player :=
  let p1 : Player := { p with vy := p.vy + gravity }
  let p2 : Player := { p1 with x := p1.x + p1.vx }
  { p2 with y := p2.y + p2.vy }

/-- The statement `if (platform.vx) platform.x += platform.vx;`: the test is true
when the field is present and not zero. -/
def platformDrift (pf : Platform) : Platform :=
  match pf.vx with
  | some v => if v ≠ 0 then { pf with x := pf.x + v } else pf
  | none => pf

/-- The statement `if (platform.falling) platform.falling = true;`. -/
def markFalling (pf : Platform) : Platform :=
  if pf.falling = some true then { pf with falling := some true } else pf

/-- The statement `if (platform.falling) platform.y += 5;`. -/
def platformFall (pf : Platform) : Platform :=
  if pf.falling = some true then { pf with y := pf.y + 5 } else pf

/-- What the platform loop reads and writes. -/
structure PlatformAcc where
  platforms : List Platform
  player : Player
  shake : ℚ
  deriving DecidableEq, Repr

/-- The body of `level.platforms.forEach(platform => ...)` for one platform: the
platform as it is left, the player and the shake. -/
def platformStep (pf : Platform) (p : Player) (shake : ℚ) : Platform × Player × ℚ :=
  let pf1 := platformDrift pf
  if collides p.rect pf1.rect then
    if p.vy > 0 ∧ p.y < pf1.y then
      (platformFall (markFalling pf1),
        { p with y := pf1.y - p.height, vy := 0, onGround := true }, 5)
    else
      (platformFall pf1, p, shake)
  else
    (platformFall pf1, p, shake)

/-- The loop `level.platforms.forEach(...)`, in array order. -/
def platformLoop : List Platform → Player → ℚ → PlatformAcc
  | [], p, shake => ⟨[], p, shake⟩
  | pf :: rest, p, shake =>
    let r := platformStep pf p shake
    let t := platformLoop rest r.2.1 r.2.2
    ⟨r.1 :: t.platforms, t.player, t.shake⟩

/-- The movement part of the enemy loop body (lines 179-181); the second
component is the next draw index. `Math.random()` is only called when
`level.chaos > 0`. -/
def enemyMove (rnd : ℕ → ℚ) (chaos : ℤ) (e : Enemy) (n : ℕ) : Enemy × ℕ :=
  let e1 : Enemy := { e with x := e.x + e.vx }
  let e2 : Enemy :=
    if e1.x < 0 ∨ e1.x > CANVAS_WIDTH - e1.width then { e1 with vx := e1.vx * -1 } else e1
  if chaos > 0 then
    (if rnd n < 1 / 100 then { e2 with vx := e2.vx * -1 } else e2, n + 1)
  else
    (e2, n)

/-- What the enemy loop reads and writes. -/
structure EnemyAcc where
  enemies : List Enemy
  state : State
  next : ℕ

/-- The loop `level.enemies.forEach(...)`, in array order. -/
def enemyLoop (rnd : ℕ → ℚ) (chaos : ℤ) : List Enemy → ℕ → State → EnemyAcc
  | [], n, s => ⟨[], s, n⟩
  | e :: rest, n, s =>
    let m := enemyMove rnd chaos e n
    let r := if collides s.player.rect m.1.rect then loseLife rnd m.2 s else (s, m.2)
    let t := enemyLoop rnd chaos rest r.2 r.1
    ⟨m.1 :: t.enemies, t.state, t.next⟩

/-- The function `update()`. The result is `none` when `levels[currentLevel - 1]`
is `undefined`, where the script throws at `level.gravity`. -/
def update (inp : Input) (rnd : ℕ → ℚ) (s : State) : Option State :=
  if s.gameState ≠ .playing then some s
  else
    match levelAt s.levels s.currentLevel with
    | none => none
    | some level =>
      let i := playerInput inp rnd s
      let s1 := i.1
      let p := applyGravity level.gravity s1.player
      let pl := platformLoop level.platforms { p with onGround := false } s1.shake
      let s2 : State := { s1 with player := pl.player, shake := pl.shake }
      let el := enemyLoop rnd level.chaos level.enemies i.2 s2
      let s3 := el.state
      let s4 := if collides s3.player.rect level.portal then levelComplete s3 else s3
      let s5 := if s4.player.y > CANVAS_HEIGHT then (loseLife rnd el.next s4).1 else s4
      let s6 : State :=
        { s5 with particles := (s5.particles.map stepParticle).filter (fun q => q.life > 0) }
      let s7 : State := if s6.shake > 0 then { s6 with shake := s6.shake - 1 / 2 } else s6
      some { s7 with
        levels := s.levels.set (s.currentLevel - 1).toNat
          { level with platforms := pl.platforms, enemies := el.enemies } }

/-! ## Specification-side notions -/

/-- The point `(px, py)` lies strictly inside the rectangle `r`. -/
def Rect.strictlyInside (r : Rect) (px py : ℚ) : Prop :=
  r.x < px ∧ px < r.x + r.width ∧ r.y < py ∧ py < r.y + r.height

/-- The areas of `a` and `b` overlap: some point lies strictly inside both. -/
def overlap (a b : Rect) : Prop :=
  ∃ px py : ℚ, a.strictlyInside px py ∧ b.strictlyInside px py

/-- The rectangle of an enemy once line 179 (`enemy.x += enemy.vx`) has run: the
rectangle that `collides(player, enemy)` reads in that iteration. -/
def Enemy.movedRect (e : Enemy) : Rect := ⟨e.x + e.vx, e.y, e.width, e.height⟩

/-- The player as `update` has it when the platform loop starts: after the
input step, gravity and the position integration. -/
def playerAfterMove (inp : Input) (rnd : ℕ → ℚ) (gravity : ℚ) (s : State) : Player :=
  applyGravity gravity (playerInput inp rnd s).1.player

/-- The session as `update` has it when the platform loop has run (line 175). -/
def afterPlatforms (inp : Input) (rnd : ℕ → ℚ) (level : Level) (s : State) : State :=
  let pl := platformLoop level.platforms
    { playerAfterMove inp rnd level.gravity s with onGround := false } (playerInput inp rnd s).1.shake
  { (playerInput inp rnd s).1 with player := pl.player, shake := pl.shake }

/-- The enemies, the session and the next draw index as `update` has them when the
enemy loop has run (line 185). -/
def afterEnemies (inp : Input) (rnd : ℕ → ℚ) (level : Level) (s : State) : EnemyAcc :=
  enemyLoop rnd level.chaos level.enemies (playerInput inp rnd s).2 (afterPlatforms inp rnd level s)

/-- The session as `update` has it after the portal test (line 190). -/
def afterPortal (inp : Input) (rnd : ℕ → ℚ) (level : Level) (s : State) : State :=
  if collides (afterEnemies inp rnd level s).state.player.rect level.portal then
    levelComplete (afterEnemies inp rnd level s).state
  else (afterEnemies inp rnd level s).state

/-- The session as `update` has it after the fall-off test (line 195). -/
def afterFallOff (inp : Input) (rnd : ℕ → ℚ) (level : Level) (s : State) : State :=
  if (afterPortal inp rnd level s).player.y > CANVAS_HEIGHT then
    (loseLife rnd (afterEnemies inp rnd level s).next (afterPortal inp rnd level s)).1
  else afterPortal inp rnd level s

/-- What line 53, 61, 69, 77 or 85 fixes of an enemy besides `x` and `vx`. -/
def enemyShape (e : Enemy) : ℚ × ℚ × ℚ := (e.y, e.width, e.height)

/-- The shapes of a level's enemies keep the contact bands apart: every enemy is
32 high and not lower than y = 568, and two enemies differ in `y` by 64 or more,
so that a player of height 32 overlaps at most one of them vertically. -/
def shapesOk (l : List (ℚ × ℚ × ℚ)) : Prop :=
  (∀ q ∈ l, q.2.2 = 32 ∧ q.1 ≤ 568) ∧
    l.Pairwise (fun a b => a.1 + 64 ≤ b.1 ∨ b.1 + 64 ≤ a.1)

/-- A session on level 5 of the table `levels (fun _ => 1 / 2)` with one life
left: the player is in the air at (700, 280), beside the portal (700, 250, 50, 50),
and the third enemy has walked from x = 500 to x = 698. -/
def lastLifeAtPortal : State :=
  { gameState := .playing
    currentLevel := 5
    lives := 1
    score := 0
    shake := 0
    particles := []
    player := ⟨700, 280, 32, 32, 0, 0, false⟩
    levels := (levels (fun _ => 1 / 2)).set 4
      { platforms := [⟨0, 550, 150, 50, some 0, some false⟩, ⟨300, 450, 150, 50, some 0, some false⟩,
          ⟨600, 350, 150, 50, some 0, some false⟩],
        enemies := [⟨400, 400, 32, 32, 5⟩, ⟨200, 500, 32, 32, -4⟩, ⟨698, 300, 32, 32, 3⟩],
        portal := ⟨700, 250, 50, 50⟩,
        gravity := GRAVITY_BASE + 3 / 10,
        chaos := 4 } }

/-- A session on level 3 ("Falling Trap") of the table, the player falling at
vy = 5 from y = 515 onto the first platform (0, 550, 200, 50, falling: false). -/
def fallingTrapState : State :=
  { initialState (fun _ => 1 / 2) with
    currentLevel := 3
    player := ⟨100, 515, 32, 32, 0, 5, false⟩ }

/-- The number of `loseLife()` calls of the enemy loop, told from the lives, the
player's rectangle and the moved rectangles of the enemies still to come: an
enemy counts when it overlaps the rectangle as it stands at its turn, and a life
loss that leaves lives > 0 moves the rectangle to the start point (100, 500). -/
def hitCount : ℤ → Rect → List Rect → ℕ
  | _, _, [] => 0
  | l, p, e :: es =>
    if collides p e then
      1 + hitCount (l - 1) (if l - 1 ≤ 0 then p else { p with x := 100, y := 500 }) es
    else hitCount l p es

/-- Level 4 of the table `levels (fun _ => 1 / 2)` once the second enemy has
walked to (103, 500), next to the start point. -/
def twoContactsLevel : Level :=
  { platforms := [⟨0, 550, 200, 50, some 0, none⟩, ⟨300, 450, 200, 50, some 0, none⟩,
      ⟨600, 350, 200, 50, some 0, none⟩],
    enemies := [⟨400, 400, 32, 32, 4⟩, ⟨103, 500, 32, 32, -3⟩],
    portal := ⟨700, 300, 50, 50⟩,
    gravity := GRAVITY_BASE + 2 / 10,
    chaos := 3 }

/-- A session on level 4 of the table `levels (fun _ => 1 / 2)` with three lives:
the player is in the air at (400, 380), the first enemy is at its starting point
(400, 400) and the second has walked to (103, 500), next to the start point. -/
def twoContactsState : State :=
  { gameState := .playing
    currentLevel := 4
    lives := 3
    score := 0
    shake := 0
    particles := []
    player := ⟨400, 380, 32, 32, 0, 0, false⟩
    levels := (levels (fun _ => 1 / 2)).set 3 twoContactsLevel }

/-- The sessions the script can be in: the initial one (the table built from the
draws `r`), and whatever `update` (any input, any random stream), the restart
button and the next-level button make of a reachable session. -/
inductive Reachable (r : ℕ → ℚ) : State → Prop
  | init : Reachable r (initialState r)
  | update (inp : Input) (rnd : ℕ → ℚ) (s t : State) :
      Reachable r s → update inp rnd s = some t → Reachable r t
  | restart (s : State) : Reachable r s → Reachable r (restart s)
  | nextLevel (s : State) : Reachable r s → Reachable r (nextLevel s)

/-- The initial session of the table `levels (fun _ => 1 / 2)` one frame later,
no button held: the player has dropped to y = 500.5 and the enemy of level 1 has
stepped to x = 401. -/
def secondFrameState : State :=
  { initialState (fun _ => 1 / 2) with
    player := ⟨100, 1001 / 2, 32, 32, 0, 1 / 2, false⟩
    levels := (levels (fun _ => 1 / 2)).set 0
      { platforms := [⟨0, 550, 200, 50, none, none⟩, ⟨300, 450, 200, 50, none, none⟩,
          ⟨600, 350, 200, 50, none, none⟩],
        enemies := [⟨401, 400, 32, 32, 1⟩],
        portal := ⟨700, 300, 50, 50⟩,
        gravity := GRAVITY_BASE,
        chaos := 0 } }

/-- A level with the single platform used in the landing examples. -/
def onePlatformLevel : Level :=
  { platforms := [⟨0, 550, 200, 50, none, none⟩]
    enemies := []
    portal := ⟨700, 300, 50, 50⟩
    gravity := GRAVITY_BASE
    chaos := 0 }

/-- A playing session on `onePlatformLevel` with the player at height `y`, falling
at speed `vy`. -/
def onePlatformState (y vy : ℚ) : State :=
  { gameState := .playing
    currentLevel := 1
    lives := LIVES_START
    score := 0
    shake := 0
    particles := []
    player := ⟨100, y, 32, 32, 0, vy, false⟩
    levels := [onePlatformLevel] }

/-- A session in which level 5 has just been completed: mode `levelComplete`,
currentLevel = 5, score 1500. -/
def lastLevelDoneState : State :=
  { initialState (fun _ => 1 / 2) with
    currentLevel := 5, gameState := .levelComplete, score := 1500 }

/-- A session on level 3 of the table with score 50, the player in the air at the
portal (700, 300, 50, 50). -/
def atPortalState : State :=
  { initialState (fun _ => 1 / 2) with
    currentLevel := 3
    score := 50
    player := ⟨700, 300, 32, 32, 0, 0, false⟩ }

/-- Level 3 of the table `levels (fun _ => 1 / 2)`. -/
def levelThree : Level :=
  { platforms := [⟨0, 550, 200, 50, none, some false⟩, ⟨300, 450, 200, 50, none, some false⟩,
      ⟨600, 350, 200, 50, none, some false⟩],
    enemies := [⟨400, 400, 32, 32, 3⟩],
    portal := ⟨700, 300, 50, 50⟩,
    gravity := GRAVITY_BASE + 1 / 10,
    chaos := 2 }

/-- A one-platform level with gravity 40, between the player's height 32 and the
platform's height 50. -/
def heavyLevel : Level :=
  { platforms := [⟨0, 550, 200, 50, none, none⟩]
    enemies := []
    portal := ⟨700, 300, 50, 50⟩
    gravity := 40
    chaos := 0 }

/-- A one-platform level whose platform lies below the canvas bottom (y = 650). -/
def sunkenLevel : Level :=
  { platforms := [⟨0, 650, 200, 50, none, none⟩]
    enemies := []
    portal := ⟨700, 300, 50, 50⟩
    gravity := GRAVITY_BASE
    chaos := 0 }

/-- A playing session on the single level `level`, the player at rest (vy = 0,
onGround) at height `y`, x = 100. -/
def restingState (level : Level) (y : ℚ) : State :=
  { gameState := .playing
    currentLevel := 1
    lives := LIVES_START
    score := 0
    shake := 0
    particles := []
    player := ⟨100, y, 32, 32, 0, 0, true⟩
    levels := [level] }

/-- A run of consecutive `update()` calls, one per entry of the list (the input
flags and the random stream of that frame); `none` when one of them throws. -/
def updates : List (Input × (ℕ → ℚ)) → State → Option State
  | [], s => some s
  | step :: rest, s => (update step.1 step.2 s).bind (updates rest)

/-- The mode is `playing` at the start of each call of the run. -/
def playingThroughout : List (Input × (ℕ → ℚ)) → State → Bool
  | [], _ => true
  | step :: rest, s =>
    decide (s.gameState = .playing) &&
      (match update step.1 step.2 s with
        | some t => playingThroughout rest t
        | none => false)

/-- What `n` frames make of a particle, as the claim tells it: with lifetime
above `n` it is still there, moved `n` times by its velocity and `n` frames
older; otherwise it is gone. -/
def agedParticle (n : ℕ) (p : Particle) : Option Particle :=
  if (n : ℤ) < p.life then
    some { p with x := p.x + n * p.vx, y := p.y + n * p.vy, life := p.life - n }
  else none

/-- The list `b` is the list `a` followed by particles just pushed by
`createParticles` (lifetime 30). -/
def PushedOnto (a b : List Particle) : Prop :=
  ∃ fresh : List Particle, b = a ++ fresh ∧ ∀ q ∈ fresh, q.life = 30

/-- The initial session with one particle of lifetime 30 at the origin. -/
def oneParticleState : State :=
  { initialState (fun _ => 1 / 2) with particles := [⟨0, 0, 1, -1, 30⟩] }

/-- Thirty frames with no button held and every random draw 0.5. -/
def thirtyIdleFrames : List (Input × (ℕ → ℚ)) :=
  List.replicate 30 (⟨false, false, false⟩, fun _ => 1 / 2)

/-- The enemy is near the canvas, for a speed `a` and a width `w`: it has width
`w` and speed |vx| = `a`, its `x` is within `a` of the interval
[0, CANVAS_WIDTH - w], and when `x` is outside that interval the velocity points
back into it. -/
def Enemy.nearCanvas (a w : ℚ) (e : Enemy) : Prop :=
  e.width = w ∧ |e.vx| = a ∧ -a ≤ e.x ∧ e.x ≤ CANVAS_WIDTH - w + a ∧
    (e.x < 0 → 0 < e.vx) ∧ (CANVAS_WIDTH - w < e.x → e.vx < 0)

/-- The initial session of the table `levels (fun _ => 1 / 2)` with the enemy of
level 1 (chaos 0) walked to the right edge, x = 768 = CANVAS_WIDTH - 32. -/
def edgeEnemyState : State :=
  { initialState (fun _ => 1 / 2) with
    levels := (levels (fun _ => 1 / 2)).set 0
      { platforms := [⟨0, 550, 200, 50, none, none⟩, ⟨300, 450, 200, 50, none, none⟩,
          ⟨600, 350, 200, 50, none, none⟩],
        enemies := [⟨768, 400, 32, 32, 1⟩],
        portal := ⟨700, 300, 50, 50⟩,
        gravity := GRAVITY_BASE,
        chaos := 0 } }

/-- Level 1 as `edgeEnemyState` has it. -/
def edgeEnemyLevel : Level :=
  { platforms := [⟨0, 550, 200, 50, none, none⟩, ⟨300, 450, 200, 50, none, none⟩,
      ⟨600, 350, 200, 50, none, none⟩],
    enemies := [⟨768, 400, 32, 32, 1⟩],
    portal := ⟨700, 300, 50, 50⟩,
    gravity := GRAVITY_BASE,
    chaos := 0 }

/-! ## The collision test in double precision

`collides` above takes the four sums of line 136 exactly. JavaScript computes them
in IEEE 754 binary64: the exact sum is rounded to 53 significant bits, to nearest,
ties to even. The definitions below model that rounding on rationals, for finite
operands. -/

/-- Two to the power `e`. -/
def pow2 (e : ℤ) : ℚ :=
  if 0 ≤ e then ((2 ^ e.toNat : ℕ) : ℚ) else 1 / ((2 ^ (-e).toNat : ℕ) : ℚ)

/-- Upward exponent search from `e` (where `2 ^ e ≤ |q|`): the largest exponent
up to `e + fuel` whose power of two is at most `|q|`. -/
def binadeUp (q : ℚ) (e : ℤ) : ℕ → ℤ
  | 0 => e
  | fuel + 1 => if pow2 (e + 1) ≤ |q| then binadeUp q (e + 1) fuel else e

/-- Downward exponent search from `e` (where `|q| < 2 ^ (e + 1)`): the largest
exponent down to `e - fuel` whose power of two is at most `|q|`, and `e - fuel`
when there is none. -/
def binadeDown (q : ℚ) (e : ℤ) : ℕ → ℤ
  | 0 => e
  | fuel + 1 => if pow2 e ≤ |q| then e else binadeDown q (e - 1) fuel

/-- The binary64 exponent of `q`: the `e` with `2 ^ e ≤ |q| < 2 ^ (e + 1)`, kept
within -1022 (the exponent of the subnormal numbers) and 1023. -/
def binade (q : ℚ) : ℤ :=
  if 1 ≤ |q| then binadeUp q 0 1023 else binadeDown q (-1) 1021

/-- The nearest integer, the even one of the two at a tie. -/
def roundHalfEven (x : ℚ) : ℤ :=
  if x - (Rat.floor x : ℚ) < 1 / 2 then Rat.floor x
  else if 1 / 2 < x - (Rat.floor x : ℚ) then Rat.floor x + 1
  else if Rat.floor x % 2 = 0 then Rat.floor x
  else Rat.floor x + 1

/-- The number `q` rounded to binary64 precision: the nearest multiple of
`2 ^ (binade q - 52)`, ties to even (before any overflow to an infinity). -/
def roundDouble (q : ℚ) : ℚ :=
  (roundHalfEven (q / pow2 (binade q - 52)) : ℚ) * pow2 (binade q - 52)

/-- The value of a JavaScript `+` on two finite numbers: a finite number or,
after overflow, one of the infinities. -/
inductive DoubleSum where
  | finite (q : ℚ)
  | posInf
  | negInf
  deriving DecidableEq, Repr

/-- The JavaScript `x + y` on finite `x`, `y`: the exact sum rounded, and an
infinity when the rounded sum reaches `2 ^ 1024` in magnitude. -/
def addDouble (x y : ℚ) : DoubleSum :=
  if pow2 1024 ≤ roundDouble (x + y) then .posInf
  else if roundDouble (x + y) ≤ -pow2 1024 then .negInf
  else .finite (roundDouble (x + y))

/-- The comparison `x < s` of a finite number with a sum. -/
def DoubleSum.above (s : DoubleSum) (x : ℚ) : Bool :=
  match s with
  | .finite q => decide (x < q)
  | .posInf => true
  | .negInf => false

/-- The function `collides(a, b)` with its four sums computed as JavaScript
computes them (`addDouble`); `a.x + a.width > b.x` is `b.x < a.x + a.width`. -/
def collidesDouble (a b : Rect) : Bool :=
  (addDouble b.x b.width).above a.x && (addDouble a.x a.width).above b.x &&
    (addDouble b.y b.height).above a.y && (addDouble a.y a.height).above b.y

/-- A sliver of width 2^-53 at x = 1, inside the unit square at (1, 0). -/
def sliverRect : Rect := ⟨1, 0, 1 / 9007199254740992, 1⟩

/-- The unit square at (1, 0). -/
def unitSquareRect : Rect := ⟨1, 0, 1, 1⟩

/-! ## Collision detection: theorems -/

theorem collides_eq_true_iff (a b : Rect) :
    collides a b = true ↔
      a.x < b.x + b.width ∧ b.x < a.x + a.width ∧ a.y < b.y + b.height ∧ b.y < a.y + a.height := by
  simp only [collides, Bool.and_eq_true, decide_eq_true_eq, gt_iff_lt]
  tauto

/-- C1: `collides` is symmetric, `collides a b = collides b a` for all rectangles. -/
theorem collides_symm (a b : Rect) : collides a b = collides b a := by
  rw [Bool.eq_iff_iff, collides_eq_true_iff, collides_eq_true_iff]
  tauto

/-- With the sums taken exactly and positive sizes, `collides a b` is true exactly
when some point lies strictly inside both rectangles. -/
theorem collides_eq_true_iff_overlap (a b : Rect) (haw : 0 < a.width) (hah : 0 < a.height)
    (hbw : 0 < b.width) (hbh : 0 < b.height) :
    collides a b = true ↔ overlap a b := by
  rw [collides_eq_true_iff]
  constructor
  · rintro ⟨h1, h2, h3, h4⟩
    refine ⟨(max a.x b.x + min (a.x + a.width) (b.x + b.width)) / 2,
      (max a.y b.y + min (a.y + a.height) (b.y + b.height)) / 2, ?_, ?_⟩
    · have hx : max a.x b.x < min (a.x + a.width) (b.x + b.width) := by
        rw [max_lt_iff, lt_min_iff, lt_min_iff]
        exact ⟨⟨by linarith, h1⟩, ⟨h2, by linarith⟩⟩
      have hy : max a.y b.y < min (a.y + a.height) (b.y + b.height) := by
        rw [max_lt_iff, lt_min_iff, lt_min_iff]
        exact ⟨⟨by linarith, h3⟩, ⟨h4, by linarith⟩⟩
      have := le_max_left a.x b.x
      have := min_le_left (a.x + a.width) (b.x + b.width)
      have := le_max_left a.y b.y
      have := min_le_left (a.y + a.height) (b.y + b.height)
      refine ⟨?_, ?_, ?_, ?_⟩ <;> linarith
    · have hx : max a.x b.x < min (a.x + a.width) (b.x + b.width) := by
        rw [max_lt_iff, lt_min_iff, lt_min_iff]
        exact ⟨⟨by linarith, h1⟩, ⟨h2, by linarith⟩⟩
      have hy : max a.y b.y < min (a.y + a.height) (b.y + b.height) := by
        rw [max_lt_iff, lt_min_iff, lt_min_iff]
        exact ⟨⟨by linarith, h3⟩, ⟨h4, by linarith⟩⟩
      have := le_max_right a.x b.x
      have := min_le_right (a.x + a.width) (b.x + b.width)
      have := le_max_right a.y b.y
      have := min_le_right (a.y + a.height) (b.y + b.height)
      refine ⟨?_, ?_, ?_, ?_⟩ <;> linarith
  · rintro ⟨px, py, ⟨a1, a2, a3, a4⟩, ⟨b1, b2, b3, b4⟩⟩
    refine ⟨?_, ?_, ?_, ?_⟩ <;> linarith

theorem collidesDouble_eq_collides (a b : Rect)
    (hax : addDouble a.x a.width = .finite (a.x + a.width))
    (hay : addDouble a.y a.height = .finite (a.y + a.height))
    (hbx : addDouble b.x b.width = .finite (b.x + b.width))
    (hby : addDouble b.y b.height = .finite (b.y + b.height)) :
    collidesDouble a b = collides a b := by
  rw [Bool.eq_iff_iff, collides_eq_true_iff]
  simp only [collidesDouble, hax, hay, hbx, hby, DoubleSum.above, Bool.and_eq_true,
    decide_eq_true_eq]
  tauto

/-- C2 fails as stated: the sliver (1, 0, 2^-53, 1) and the unit square (1, 0, 1, 1)
have positive sizes and the point (1 + 2^-54, 1/2) lies strictly inside both, but
the sum 1 + 2^-53 rounds to 1 in double precision, `a.x + a.width > b.x` is
`1 > 1`, and the collision test returns false. -/
theorem collides_rounding_counterexample :
    0 < sliverRect.width ∧ 0 < sliverRect.height ∧
      0 < unitSquareRect.width ∧ 0 < unitSquareRect.height ∧
      overlap sliverRect unitSquareRect ∧
      addDouble sliverRect.x sliverRect.width = .finite 1 ∧
      collidesDouble sliverRect unitSquareRect = false := by
  refine ⟨by decide!, by decide!, by decide!, by decide!, ?_, by decide!, by decide!⟩
  refine ⟨1 + 1 / 18014398509481984, 1 / 2, ?_, ?_⟩ <;>
    simp only [Rect.strictlyInside, sliverRect, unitSquareRect] <;> norm_num

/-- C2 (amended): for rectangles of positive width and height whose four sums
x + width and y + height are computed without rounding or overflow, the
collision test is true exactly when some point lies strictly inside both
rectangles; it is false for (0,0,10,10) against (20,20,10,10) and true for
(0,0,10,10) against (5,5,10,10). -/
theorem collidesDouble_iff_overlap (a b : Rect) (haw : 0 < a.width) (hah : 0 < a.height)
    (hbw : 0 < b.width) (hbh : 0 < b.height)
    (hax : addDouble a.x a.width = .finite (a.x + a.width))
    (hay : addDouble a.y a.height = .finite (a.y + a.height))
    (hbx : addDouble b.x b.width = .finite (b.x + b.width))
    (hby : addDouble b.y b.height = .finite (b.y + b.height)) :
    (collidesDouble a b = true ↔ overlap a b) ∧
      collidesDouble ⟨0, 0, 10, 10⟩ ⟨20, 20, 10, 10⟩ = false ∧
      collidesDouble ⟨0, 0, 10, 10⟩ ⟨5, 5, 10, 10⟩ = true := by
  refine ⟨?_, by decide!, by decide!⟩
  rw [collidesDouble_eq_collides a b hax hay hbx hby]
  exact collides_eq_true_iff_overlap a b haw hah hbw hbh

theorem collidesDouble_iff_overlap_witness :
    (collidesDouble ⟨0, 0, 10, 10⟩ ⟨5, 5, 10, 10⟩ = true ↔
        overlap ⟨0, 0, 10, 10⟩ ⟨5, 5, 10, 10⟩) ∧
      collidesDouble ⟨0, 0, 10, 10⟩ ⟨20, 20, 10, 10⟩ = false ∧
      collidesDouble ⟨0, 0, 10, 10⟩ ⟨5, 5, 10, 10⟩ = true :=
  collidesDouble_iff_overlap ⟨0, 0, 10, 10⟩ ⟨5, 5, 10, 10⟩ (by decide!) (by decide!) (by decide!)
    (by decide!) (by decide!) (by decide!) (by decide!) (by decide!)

/-- C3 fails as stated: (0,0,10,10) and (10,0,10,10) have positive sizes, the same
vertical extent and touch along the vertical edge x = 10, and `collides` is false. -/
theorem collides_touching_counterexample :
    (0 : ℚ) < (Rect.mk 0 0 10 10).width ∧ (0 : ℚ) < (Rect.mk 0 0 10 10).height ∧
      (0 : ℚ) < (Rect.mk 10 0 10 10).width ∧ (0 : ℚ) < (Rect.mk 10 0 10 10).height ∧
      (Rect.mk 0 0 10 10).y < (Rect.mk 10 0 10 10).y + (Rect.mk 10 0 10 10).height ∧
      (Rect.mk 10 0 10 10).y < (Rect.mk 0 0 10 10).y + (Rect.mk 0 0 10 10).height ∧
      (Rect.mk 0 0 10 10).x + (Rect.mk 0 0 10 10).width = (Rect.mk 10 0 10 10).x ∧
      collides (Rect.mk 0 0 10 10) (Rect.mk 10 0 10 10) = false := by
  decide!

/-- C3 (amended): rectangles that only touch along a vertical edge
(`a.x + a.width = b.x`) do not collide, `collides a b = false`, whatever their
sizes and vertical extents. -/
theorem collides_touching_false (a b : Rect) (h : a.x + a.width = b.x) :
    collides a b = false := by
  rw [Bool.eq_false_iff, Ne, collides_eq_true_iff]
  rintro ⟨-, h2, -, -⟩
  exact absurd h2 (by rw [h]; exact lt_irrefl _)

theorem collides_touching_false_witness :
    collides ⟨0, 0, 10, 10⟩ ⟨10, 0, 10, 10⟩ = false :=
  collides_touching_false ⟨0, 0, 10, 10⟩ ⟨10, 0, 10, 10⟩ (by decide!)

/-! ## The frame step: theorems -/

/-- C4: outside `playing` (mode `gameOver` or `levelComplete`) `update` returns the
state it was given, every field unchanged, for every input and random stream. -/
theorem update_noop_outside_playing (inp : Input) (rnd : ℕ → ℚ) (s : State)
    (h : s.gameState = .gameOver ∨ s.gameState = .levelComplete) :
    update inp rnd s = some s := by
  have hne : s.gameState ≠ .playing := by
    rcases h with h | h <;> rw [h] <;> decide
  simp [update, hne]

theorem update_noop_outside_playing_witness :
    update ⟨true, false, true⟩ (fun _ => 1 / 2)
        { initialState (fun _ => 1 / 2) with gameState := .levelComplete } =
      some { initialState (fun _ => 1 / 2) with gameState := .levelComplete } :=
  update_noop_outside_playing _ _ _ (Or.inr rfl)

theorem update_playing (inp : Input) (rnd : ℕ → ℚ) (s : State) (level : Level)
    (hmode : s.gameState = .playing) (hlevel : levelAt s.levels s.currentLevel = some level) :
    update inp rnd s =
      some (
        let i := playerInput inp rnd s
        let s1 := i.1
        let p := applyGravity level.gravity s1.player
        let pl := platformLoop level.platforms { p with onGround := false } s1.shake
        let s2 : State := { s1 with player := pl.player, shake := pl.shake }
        let el := enemyLoop rnd level.chaos level.enemies i.2 s2
        let s3 := el.state
        let s4 := if collides s3.player.rect level.portal then levelComplete s3 else s3
        let s5 := if s4.player.y > CANVAS_HEIGHT then (loseLife rnd el.next s4).1 else s4
        let s6 : State :=
          { s5 with particles := (s5.particles.map stepParticle).filter (fun q => q.life > 0) }
        let s7 : State := if s6.shake > 0 then { s6 with shake := s6.shake - 1 / 2 } else s6
        { s7 with
          levels := s.levels.set (s.currentLevel - 1).toNat
            { level with platforms := pl.platforms, enemies := el.enemies } }) := by
  simp [update, hmode, hlevel]

theorem update_stages (inp : Input) (rnd : ℕ → ℚ) (s : State) (level : Level)
    (hmode : s.gameState = .playing) (hlevel : levelAt s.levels s.currentLevel = some level) :
    ∃ t, update inp rnd s = some t ∧
      t.gameState = (afterFallOff inp rnd level s).gameState ∧
      t.currentLevel = (afterFallOff inp rnd level s).currentLevel ∧
      t.lives = (afterFallOff inp rnd level s).lives ∧
      t.score = (afterFallOff inp rnd level s).score ∧
      t.player = (afterFallOff inp rnd level s).player ∧
      t.shake = (if (afterFallOff inp rnd level s).shake > 0 then
        (afterFallOff inp rnd level s).shake - 1 / 2 else (afterFallOff inp rnd level s).shake) ∧
      t.particles = ((afterFallOff inp rnd level s).particles.map stepParticle).filter
        (fun q => q.life > 0) ∧
      t.levels = s.levels.set (s.currentLevel - 1).toNat
        { level with
          platforms := (platformLoop level.platforms
            { playerAfterMove inp rnd level.gravity s with onGround := false }
            (playerInput inp rnd s).1.shake).platforms
          enemies := (afterEnemies inp rnd level s).enemies } := by
  have key : update inp rnd s = some (
      let f := afterFallOff inp rnd level s
      let s6 : State :=
        { f with particles := (f.particles.map stepParticle).filter (fun q => q.life > 0) }
      let s7 : State := if f.shake > 0 then { s6 with shake := f.shake - 1 / 2 } else s6
      { s7 with
        levels := s.levels.set (s.currentLevel - 1).toNat
          { level with
            platforms := (platformLoop level.platforms
              { playerAfterMove inp rnd level.gravity s with onGround := false }
              (playerInput inp rnd s).1.shake).platforms
            enemies := (afterEnemies inp rnd level s).enemies } }) := by
    rw [update_playing inp rnd s level hmode hlevel]
    rfl
  rw [key]
  refine ⟨_, rfl, ?_⟩
  by_cases hc : (afterFallOff inp rnd level s).shake > 0
  · simp only [hc, if_true, and_self]
  · simp only [hc, if_false, and_self]

theorem enemyMove_rect (rnd : ℕ → ℚ) (chaos : ℤ) (e : Enemy) (n : ℕ) :
    (enemyMove rnd chaos e n).1.rect = e.movedRect := by
  simp only [enemyMove, Enemy.rect, Enemy.movedRect]
  split_ifs <;> rfl

theorem enemyLoop_no_contact (rnd : ℕ → ℚ) (chaos : ℤ) (es : List Enemy) (n : ℕ) (s : State)
    (h : ∀ e ∈ es, collides s.player.rect e.movedRect = false) :
    (enemyLoop rnd chaos es n s).state = s := by
  induction es generalizing n with
  | nil => rfl
  | cons e rest ih =>
    have he : collides s.player.rect (enemyMove rnd chaos e n).1.rect = false := by
      rw [enemyMove_rect]; exact h e (List.mem_cons_self _ _)
    simp only [enemyLoop, he, Bool.false_eq_true, if_false]
    exact ih _ (fun e' he' => h e' (List.mem_cons_of_mem _ he'))

theorem playerInput_height (inp : Input) (rnd : ℕ → ℚ) (s : State) :
    (playerInput inp rnd s).1.player.height = s.player.height := by
  simp only [playerInput]
  split_ifs <;> rfl

theorem playerInput_width (inp : Input) (rnd : ℕ → ℚ) (s : State) :
    (playerInput inp rnd s).1.player.width = s.player.width := by
  simp only [playerInput]
  split_ifs <;> rfl

theorem playerAfterMove_width (inp : Input) (rnd : ℕ → ℚ) (g : ℚ) (s : State) :
    (playerAfterMove inp rnd g s).width = s.player.width := by
  simp only [playerAfterMove, applyGravity]
  exact playerInput_width inp rnd s

theorem playerAfterMove_height (inp : Input) (rnd : ℕ → ℚ) (g : ℚ) (s : State) :
    (playerAfterMove inp rnd g s).height = s.player.height := by
  simp only [playerAfterMove, applyGravity]
  exact playerInput_height inp rnd s

theorem loseLife_lives (rnd : ℕ → ℚ) (n : ℕ) (s : State) :
    (loseLife rnd n s).1.lives = s.lives - 1 := by
  simp only [loseLife]
  split_ifs <;> rfl

theorem loseLife_player (rnd : ℕ → ℚ) (n : ℕ) (s : State) :
    (loseLife rnd n s).1.player =
      if s.lives - 1 ≤ 0 then s.player
      else { s.player with x := 100, y := 500, vx := 0, vy := 0 } := by
  simp only [loseLife]
  split_ifs <;> rfl

theorem loseLife_gameState (rnd : ℕ → ℚ) (n : ℕ) (s : State) :
    (loseLife rnd n s).1.gameState = if s.lives - 1 ≤ 0 then .gameOver else s.gameState := by
  simp only [loseLife]
  split_ifs <;> rfl

theorem loseLife_shake (rnd : ℕ → ℚ) (n : ℕ) (s : State) :
    (loseLife rnd n s).1.shake = 10 := by
  simp only [loseLife]
  split_ifs <;> rfl

theorem playerInput_lives (inp : Input) (rnd : ℕ → ℚ) (s : State) :
    (playerInput inp rnd s).1.lives = s.lives := by
  simp only [playerInput]
  split_ifs <;> rfl

theorem playerInput_gameState (inp : Input) (rnd : ℕ → ℚ) (s : State) :
    (playerInput inp rnd s).1.gameState = s.gameState := by
  simp only [playerInput]
  split_ifs <;> rfl

theorem playerInput_shake (inp : Input) (rnd : ℕ → ℚ) (s : State) :
    (playerInput inp rnd s).1.shake = s.shake := by
  simp only [playerInput]
  split_ifs <;> rfl

theorem platformStep_height (pf : Platform) (p : Player) (sh : ℚ) :
    (platformStep pf p sh).2.1.height = p.height := by
  simp only [platformStep]
  split_ifs <;> rfl

theorem platformLoop_height (pfs : List Platform) (p : Player) (sh : ℚ) :
    (platformLoop pfs p sh).player.height = p.height := by
  induction pfs generalizing p sh with
  | nil => rfl
  | cons pf rest ih =>
    simp only [platformLoop]
    rw [ih, platformStep_height]

theorem afterPlatforms_lives (inp : Input) (rnd : ℕ → ℚ) (level : Level) (s : State) :
    (afterPlatforms inp rnd level s).lives = s.lives :=
  playerInput_lives inp rnd s

theorem afterPlatforms_gameState (inp : Input) (rnd : ℕ → ℚ) (level : Level) (s : State) :
    (afterPlatforms inp rnd level s).gameState = s.gameState :=
  playerInput_gameState inp rnd s

theorem afterPlatforms_height (inp : Input) (rnd : ℕ → ℚ) (level : Level) (s : State) :
    (afterPlatforms inp rnd level s).player.height = s.player.height := by
  simp only [afterPlatforms]
  rw [platformLoop_height]
  exact playerAfterMove_height inp rnd level.gravity s

theorem enemyLoop_lives_band (rnd : ℕ → ℚ) (chaos : ℤ) (es : List Enemy) (n : ℕ) (s : State)
    (hh : s.player.height = 32) (hes : shapesOk (es.map enemyShape))
    (hl : 1 ≤ s.lives ∨ (s.lives = 0 ∧ s.player.y ≤ 600 ∧
      ∀ e ∈ es, ¬ (e.y - 32 < s.player.y ∧ s.player.y < e.y + 32))) :
    0 ≤ (enemyLoop rnd chaos es n s).state.lives ∧
      (enemyLoop rnd chaos es n s).state.lives ≤ s.lives ∧
      (((enemyLoop rnd chaos es n s).state.lives = s.lives ∧
          (enemyLoop rnd chaos es n s).state.player.y = s.player.y) ∨
        (enemyLoop rnd chaos es n s).state.player.y ≤ 600) := by
  induction es generalizing n s with
  | nil =>
    refine ⟨?_, le_refl _, Or.inl ⟨rfl, rfl⟩⟩
    show 0 ≤ s.lives
    rcases hl with hl | ⟨hl, -⟩ <;> omega
  | cons e rest ih =>
    obtain ⟨hall, hpw⟩ := hes
    rw [List.map_cons, List.pairwise_cons] at hpw
    have hrest : shapesOk (rest.map enemyShape) :=
      ⟨fun q hq => hall q (List.mem_cons_of_mem _ hq), hpw.2⟩
    have he := hall (enemyShape e) (by simp)
    simp only [enemyShape] at he
    simp only [enemyLoop]
    by_cases hc : collides s.player.rect (enemyMove rnd chaos e n).1.rect = true
    · simp only [hc, if_true]
      rw [enemyMove_rect, collides_eq_true_iff] at hc
      simp only [Player.rect, Enemy.movedRect] at hc
      obtain ⟨-, -, hc3, hc4⟩ := hc
      rw [he.1] at hc3
      rw [hh] at hc4
      have hpos : 1 ≤ s.lives := by
        rcases hl with hl | ⟨-, -, hno⟩
        · exact hl
        · exact absurd ⟨by linarith, hc3⟩ (hno e (List.mem_cons_self _ _))
      have hll := loseLife_lives rnd (enemyMove rnd chaos e n).2 s
      have hlp := loseLife_player rnd (enemyMove rnd chaos e n).2 s
      by_cases hz : s.lives - 1 ≤ 0
      · rw [if_pos hz] at hlp
        have hno : ∀ e' ∈ rest, ¬ (e'.y - 32 < (loseLife rnd (enemyMove rnd chaos e n).2 s).1.player.y ∧
            (loseLife rnd (enemyMove rnd chaos e n).2 s).1.player.y < e'.y + 32) := by
          intro e' he' hb
          rw [hlp] at hb
          have hsep := hpw.1 (enemyShape e') (List.mem_map_of_mem _ he')
          simp only [enemyShape] at hsep
          rcases hsep with hsep | hsep <;> linarith [hb.1, hb.2]
        have := ih (loseLife rnd (enemyMove rnd chaos e n).2 s).2 (loseLife rnd (enemyMove rnd chaos e n).2 s).1
          (by rw [hlp]; exact hh) hrest
          (Or.inr ⟨by rw [hll]; omega, by rw [hlp]; linarith [he.2], hno⟩)
        rw [hll, hlp] at this
        obtain ⟨h1, h2, h3⟩ := this
        refine ⟨h1, by omega, Or.inr ?_⟩
        rcases h3 with ⟨-, h3⟩ | h3
        · rw [h3]; linarith [he.2]
        · exact h3
      · rw [if_neg hz] at hlp
        have := ih (loseLife rnd (enemyMove rnd chaos e n).2 s).2 (loseLife rnd (enemyMove rnd chaos e n).2 s).1
          (by rw [hlp]; exact hh) hrest (Or.inl (by rw [hll]; omega))
        rw [hll, hlp] at this
        obtain ⟨h1, h2, h3⟩ := this
        refine ⟨h1, by omega, Or.inr ?_⟩
        rcases h3 with ⟨-, h3⟩ | h3
        · rw [h3]; norm_num
        · exact h3
    · simp only [hc, if_false, Bool.false_eq_true]
      have := ih (enemyMove rnd chaos e n).2 s hh hrest (by
        rcases hl with hl | ⟨h0, hy, hno⟩
        · exact Or.inl hl
        · exact Or.inr ⟨h0, hy, fun e' he' => hno e' (List.mem_cons_of_mem _ he')⟩)
      exact this

theorem platformStep_land (pf : Platform) (p : Player) (sh : ℚ)
    (hvx : pf.vx = none) (hfall : pf.falling ≠ some true)
    (hcol : collides p.rect pf.rect = true) (hvy : p.vy > 0) (hy : p.y < pf.y) :
    platformStep pf p sh = (pf, { p with y := pf.y - p.height, vy := 0, onGround := true }, 5) := by
  have hdrift : platformDrift pf = pf := by simp [platformDrift, hvx]
  have hpf : platformFall pf = pf := by simp [platformFall, hfall]
  have hmf : markFalling pf = pf := by simp [markFalling, hfall]
  simp only [platformStep, hdrift, hcol, if_true, hvy, hy, and_self, hmf, hpf]

/-- C5 fails as stated: on a one-platform level (platform (0,550,200,50), no
enemies) a player at y = 549 falling with vy = 10 has vy > 0 and its top above the
platform's top before the update and overlaps the platform after the position
integration (y = 559.5), touches neither portal nor bottom edge, and is not
landed: after `update` y = 559.5, vy = 10.5 and onGround = false. -/
theorem landing_contract_counterexample :
    (onePlatformState 549 10).gameState = .playing ∧
      levelAt (onePlatformState 549 10).levels (onePlatformState 549 10).currentLevel =
        some onePlatformLevel ∧
      (onePlatformState 549 10).player.vy > 0 ∧
      (onePlatformState 549 10).player.y < (Platform.mk 0 550 200 50 none none).y ∧
      collides (playerAfterMove ⟨false, false, false⟩ (fun _ => 0) onePlatformLevel.gravity
        (onePlatformState 549 10)).rect (Platform.mk 0 550 200 50 none none).rect = true ∧
      (update ⟨false, false, false⟩ (fun _ => 0) (onePlatformState 549 10)).map
        (fun t => (t.player.y, t.player.vy, t.player.onGround, t.lives, t.gameState)) =
        some (1119 / 2, 21 / 2, false, 3, .playing) := by
  decide!

/-- C5 (amended): in a playing state whose level has the single platform `pf`,
stationary (no `vx`, not falling), if after the input step, gravity and position
integration of this update the player has vy > 0, its top above the platform's
top (y < pf.y) and overlaps the platform, and the landed player touches no enemy
(as moved in this update) nor the portal and is not below the canvas, then
`update` returns a state with player.vy = 0, player.onGround = true and
player.y = pf.y - player.height. -/
theorem landing_contract (inp : Input) (rnd : ℕ → ℚ) (s : State) (level : Level) (pf : Platform)
    (hmode : s.gameState = .playing)
    (hlevel : levelAt s.levels s.currentLevel = some level)
    (hplat : level.platforms = [pf])
    (hvx : pf.vx = none) (hfall : pf.falling ≠ some true)
    (hvy : (playerAfterMove inp rnd level.gravity s).vy > 0)
    (hy : (playerAfterMove inp rnd level.gravity s).y < pf.y)
    (hcol : collides (playerAfterMove inp rnd level.gravity s).rect pf.rect = true)
    (henemy : ∀ e ∈ level.enemies,
      collides ⟨(playerAfterMove inp rnd level.gravity s).x, pf.y - s.player.height,
        s.player.width, s.player.height⟩ e.movedRect = false)
    (hportal : collides ⟨(playerAfterMove inp rnd level.gravity s).x, pf.y - s.player.height,
        s.player.width, s.player.height⟩ level.portal = false)
    (hfloor : pf.y - s.player.height ≤ CANVAS_HEIGHT) :
    ∃ t, update inp rnd s = some t ∧ t.player.vy = 0 ∧ t.player.onGround = true ∧
      t.player.y = pf.y - s.player.height := by
  have hh := playerAfterMove_height inp rnd level.gravity s
  have hw := playerAfterMove_width inp rnd level.gravity s
  have hloop : platformLoop level.platforms
      { playerAfterMove inp rnd level.gravity s with onGround := false }
      (playerInput inp rnd s).1.shake =
      ⟨[pf], { playerAfterMove inp rnd level.gravity s with
        y := pf.y - (playerAfterMove inp rnd level.gravity s).height,
        vy := 0, onGround := true }, 5⟩ := by
    rw [hplat]
    simp only [platformLoop,
      platformStep_land pf { playerAfterMove inp rnd level.gravity s with onGround := false }
        (playerInput inp rnd s).1.shake hvx hfall hcol hvy hy]
  have hen := enemyLoop_no_contact rnd level.chaos level.enemies (playerInput inp rnd s).2
    { (playerInput inp rnd s).1 with
      player := { playerAfterMove inp rnd level.gravity s with
        y := pf.y - (playerAfterMove inp rnd level.gravity s).height,
        vy := 0, onGround := true }
      shake := 5 }
    (by
      intro e he
      have := henemy e he
      simpa only [Player.rect, hh, hw] using this)
  have hpo : collides (Player.rect { playerAfterMove inp rnd level.gravity s with
        y := pf.y - (playerAfterMove inp rnd level.gravity s).height,
        vy := 0, onGround := true }) level.portal = false := by
    simpa only [Player.rect, hh, hw] using hportal
  have hfl : ¬ (pf.y - (playerAfterMove inp rnd level.gravity s).height > CANVAS_HEIGHT) := by
    rw [hh]; exact not_lt.mpr hfloor
  rw [update_playing inp rnd s level hmode hlevel]
  refine ⟨_, rfl, ?_⟩
  dsimp only
  rw [show applyGravity level.gravity (playerInput inp rnd s).1.player =
    playerAfterMove inp rnd level.gravity s from rfl, hloop]
  dsimp only
  rw [hen]
  dsimp only
  rw [hpo]
  simp only [Bool.false_eq_true, if_false, hfl]
  rw [← hh]
  split_ifs <;> simp

theorem landing_contract_witness :
    ∃ t, update ⟨false, false, false⟩ (fun _ => 0) (onePlatformState 517 3) = some t ∧
      t.player.vy = 0 ∧ t.player.onGround = true ∧
      t.player.y = (Platform.mk 0 550 200 50 none none).y - (onePlatformState 517 3).player.height :=
  landing_contract ⟨false, false, false⟩ (fun _ => 0) (onePlatformState 517 3) onePlatformLevel
    ⟨0, 550, 200, 50, none, none⟩ (by decide!) (by decide!) (by decide!) (by decide!) (by decide!)
    (by decide!) (by decide!) (by decide!) (by simp [onePlatformLevel]) (by decide!)
    (by decide!)

theorem levels_shapesOk (r : ℕ → ℚ) (tmpl : Level) (h : tmpl ∈ levels r) :
    shapesOk (tmpl.enemies.map enemyShape) := by
  simp only [levels, List.mem_cons, List.mem_singleton, List.not_mem_nil, or_false] at h
  rcases h with h | h | h | h | h <;> subst h <;>
    simp only [shapesOk, List.map_cons, List.map_nil, enemyShape, List.mem_cons,
      List.mem_singleton, List.not_mem_nil, or_false, forall_eq_or_imp, forall_eq,
      List.pairwise_cons, List.Pairwise.nil, IsEmpty.forall_iff, implies_true, and_true] <;>
    norm_num

theorem afterPortal_lives (inp : Input) (rnd : ℕ → ℚ) (level : Level) (s : State) :
    (afterPortal inp rnd level s).lives = (afterEnemies inp rnd level s).state.lives := by
  simp only [afterPortal]
  split_ifs <;> rfl

theorem afterPortal_player (inp : Input) (rnd : ℕ → ℚ) (level : Level) (s : State) :
    (afterPortal inp rnd level s).player = (afterEnemies inp rnd level s).state.player := by
  simp only [afterPortal]
  split_ifs <;> rfl

/-- C6: in a playing state whose active level has the enemy rows of one of the
five predefined levels (same `y`, width and height per enemy; `x` and `vx`
arbitrary), with the player's height the fixed 32 and 1 ≤ lives ≤ LIVES_START,
`update` returns a state with 0 ≤ lives ≤ LIVES_START, for every player position,
platform state, input and random stream. -/
theorem lives_in_range (inp : Input) (rnd r : ℕ → ℚ) (s : State) (level tmpl : Level)
    (hmode : s.gameState = .playing)
    (hlevel : levelAt s.levels s.currentLevel = some level)
    (htmpl : tmpl ∈ levels r)
    (hshape : level.enemies.map enemyShape = tmpl.enemies.map enemyShape)
    (hsize : s.player.height = 32)
    (hl : 1 ≤ s.lives) (hu : s.lives ≤ LIVES_START) :
    ∃ t, update inp rnd s = some t ∧ 0 ≤ t.lives ∧ t.lives ≤ LIVES_START := by
  obtain ⟨t, ht, -, -, hlives, -⟩ := update_stages inp rnd s level hmode hlevel
  refine ⟨t, ht, ?_⟩
  rw [hlives]
  have hband := enemyLoop_lives_band rnd level.chaos level.enemies (playerInput inp rnd s).2
    (afterPlatforms inp rnd level s)
    (by rw [afterPlatforms_height]; exact hsize)
    (by rw [hshape]; exact levels_shapesOk r tmpl htmpl)
    (Or.inl (by rw [afterPlatforms_lives]; exact hl))
  rw [afterPlatforms_lives] at hband
  obtain ⟨h1, h2, h3⟩ := hband
  have hpl := afterPortal_lives inp rnd level s
  have hpp := afterPortal_player inp rnd level s
  simp only [afterEnemies] at hpl hpp
  simp only [afterFallOff]
  split_ifs with hfall
  · rw [loseLife_lives, hpl]
    rw [hpp] at hfall
    rcases h3 with ⟨h3, -⟩ | h3
    · constructor <;> omega
    · exact absurd hfall (not_lt.mpr h3)
  · rw [hpl]
    constructor <;> omega

theorem lives_in_range_witness :
    ∃ t, update ⟨false, true, false⟩ (fun _ => 1 / 2)
        { initialState (fun _ => 1 / 2) with
          player := ⟨400, 400, 32, 32, 0, 0, false⟩, lives := 1 } = some t ∧
      0 ≤ t.lives ∧ t.lives ≤ LIVES_START :=
  lives_in_range ⟨false, true, false⟩ (fun _ => 1 / 2) (fun _ => 1 / 2)
    { initialState (fun _ => 1 / 2) with
      player := ⟨400, 400, 32, 32, 0, 0, false⟩, lives := 1 }
    { platforms := [⟨0, 550, 200, 50, none, none⟩, ⟨300, 450, 200, 50, none, none⟩,
        ⟨600, 350, 200, 50, none, none⟩],
      enemies := [⟨400, 400, 32, 32, 1⟩],
      portal := ⟨700, 300, 50, 50⟩,
      gravity := GRAVITY_BASE,
      chaos := 0 }
    { platforms := [⟨0, 550, 200, 50, none, none⟩, ⟨300, 450, 200, 50, none, none⟩,
        ⟨600, 350, 200, 50, none, none⟩],
      enemies := [⟨400, 400, 32, 32, 1⟩],
      portal := ⟨700, 300, 50, 50⟩,
      gravity := GRAVITY_BASE,
      chaos := 0 }
    (by decide!) (by decide!) (by decide!) (by decide!) (by decide!) (by decide!) (by decide!)

/-- C7, the code at the failing input: on level 5 with one life left the player
touches the third enemy and the portal in the same frame; `loseLife` brings lives
to 0 and sets `gameOver`, then `levelComplete` overwrites the mode. After `update`
lives = 0 and the mode is `levelComplete`, not `gameOver`. -/
theorem update_lastLifeAtPortal :
    lastLifeAtPortal.gameState = .playing ∧ lastLifeAtPortal.lives = 1 ∧
      (update ⟨false, false, false⟩ (fun _ => 1 / 2) lastLifeAtPortal).map
        (fun t => (t.lives, t.gameState, t.score)) = some (0, .levelComplete, 500) := by
  decide!

/-- C9, the code at the failing input: on level 3 the player lands on the first
platform, declared `falling: false`; after `update` the player stands on it
(onGround, y = 518) and the platform still has `falling = false` and y = 550. -/
theorem update_fallingTrap :
    (levelAt fallingTrapState.levels 3).map (fun l => l.platforms.map (fun p => p.falling)) =
        some [some false, some false, some false] ∧
      (update ⟨false, false, false⟩ (fun _ => 1 / 2) fallingTrapState).map
        (fun t => (t.player.onGround, t.player.y, t.player.vy)) = some (true, 518, 0) ∧
      ((update ⟨false, false, false⟩ (fun _ => 1 / 2) fallingTrapState).bind
        (fun t => levelAt t.levels 3)).map (fun l => l.platforms.map (fun p => p.falling)) =
        some [some false, some false, some false] ∧
      ((update ⟨false, false, false⟩ (fun _ => 1 / 2) fallingTrapState).bind
        (fun t => levelAt t.levels 3)).map (fun l => l.platforms.map (fun p => p.y)) =
        some [550, 450, 350] := by
  decide!

theorem loseLife_rect (rnd : ℕ → ℚ) (n : ℕ) (s : State) :
    (loseLife rnd n s).1.player.rect =
      if s.lives - 1 ≤ 0 then s.player.rect else { s.player.rect with x := 100, y := 500 } := by
  rw [loseLife_player]
  split_ifs <;> rfl

theorem enemyLoop_hitCount (rnd : ℕ → ℚ) (chaos : ℤ) (es : List Enemy) (n : ℕ) (s : State) :
    (enemyLoop rnd chaos es n s).state.lives =
      s.lives - hitCount s.lives s.player.rect (es.map Enemy.movedRect) := by
  induction es generalizing n s with
  | nil => simp [enemyLoop, hitCount]
  | cons e rest ih =>
    simp only [enemyLoop, List.map_cons, hitCount, enemyMove_rect]
    by_cases hc : collides s.player.rect e.movedRect = true
    · simp only [hc, if_true]
      rw [ih, loseLife_lives, loseLife_rect]
      push_cast
      ring
    · simp only [hc, if_false, Bool.false_eq_true]
      exact ih _ _

theorem hitCount_last_life (l : ℤ) (p : Rect) (es : List Rect) (hl : l ≤ 1) :
    hitCount l p es = es.countP (fun e => collides p e) := by
  induction es generalizing l with
  | nil => rfl
  | cons e rest ih =>
    simp only [hitCount, List.countP_cons]
    by_cases hc : collides p e = true
    · have hz : l - 1 ≤ 0 := by omega
      simp only [hc, if_true, hz]
      rw [ih (l - 1) (by omega)]
      omega
    · simp only [hc, if_false, Bool.false_eq_true, add_zero]
      exact ih l hl

theorem hitCount_no_contact (l : ℤ) (p : Rect) (es : List Rect)
    (h : es.countP (fun e => collides p e) = 0) : hitCount l p es = 0 := by
  induction es generalizing l with
  | nil => rfl
  | cons e rest ih =>
    rw [List.countP_cons] at h
    by_cases hc : collides p e = true
    · simp [hc] at h
    · simp only [hc, if_false, Bool.false_eq_true, add_zero] at h
      simp only [hitCount, hc, if_false, Bool.false_eq_true]
      exact ih l h

/-- C8 fails as stated: on level 4 with three lives, exactly one enemy (after its
movement) overlaps the player's rectangle as it stands after the movement and
platform steps, the player does not fall off the bottom, and `update` takes two
lives: the first contact respawns the player at (100, 500), where the second
enemy overlaps it. -/
theorem lifeLoss_count_counterexample :
    twoContactsState.gameState = .playing ∧
      levelAt twoContactsState.levels twoContactsState.currentLevel = some twoContactsLevel ∧
      (twoContactsLevel.enemies.map Enemy.movedRect).countP
        (fun e => collides (afterPlatforms ⟨false, false, false⟩ (fun _ => 1 / 2)
          twoContactsLevel twoContactsState).player.rect e) = 1 ∧
      ¬ ((afterPortal ⟨false, false, false⟩ (fun _ => 1 / 2)
          twoContactsLevel twoContactsState).player.y > CANVAS_HEIGHT) ∧
      twoContactsState.lives = 3 ∧
      (update ⟨false, false, false⟩ (fun _ => 1 / 2) twoContactsState).map
        (fun t => t.lives) = some 1 := by
  decide!

/-- C8 (amended): in one update in mode `playing` in which the player does not fall
off the bottom, lives decreases by exactly the number of enemies that overlap the
player's rectangle when their turn in the loop comes (`hitCount`: each enemy
after its own movement, the rectangle being the one after the movement and
platform steps until a life loss that leaves lives > 0 moves it to (100, 500));
with k the number of enemies overlapping the rectangle as it stands after the
platform steps, the decrease is exactly k when lives ≤ 1 before the update or
when k = 0. -/
theorem lifeLoss_per_contact (inp : Input) (rnd : ℕ → ℚ) (s : State) (level : Level)
    (hmode : s.gameState = .playing)
    (hlevel : levelAt s.levels s.currentLevel = some level)
    (hfall : ¬ ((afterPortal inp rnd level s).player.y > CANVAS_HEIGHT)) :
    ∃ t, update inp rnd s = some t ∧
      t.lives = s.lives - hitCount s.lives (afterPlatforms inp rnd level s).player.rect
        (level.enemies.map Enemy.movedRect) ∧
      (s.lives ≤ 1 ∨ (level.enemies.map Enemy.movedRect).countP
          (fun e => collides (afterPlatforms inp rnd level s).player.rect e) = 0 →
        t.lives = s.lives - (level.enemies.map Enemy.movedRect).countP
          (fun e => collides (afterPlatforms inp rnd level s).player.rect e)) := by
  obtain ⟨t, ht, -, -, hlives, -⟩ := update_stages inp rnd s level hmode hlevel
  have h1 : t.lives = s.lives - hitCount s.lives (afterPlatforms inp rnd level s).player.rect
      (level.enemies.map Enemy.movedRect) := by
    rw [hlives]
    simp only [afterFallOff, hfall, if_false]
    rw [afterPortal_lives]
    simp only [afterEnemies]
    rw [enemyLoop_hitCount, afterPlatforms_lives]
  refine ⟨t, ht, h1, ?_⟩
  rintro (hl | hk)
  · rw [h1, hitCount_last_life _ _ _ hl]
  · rw [h1, hitCount_no_contact _ _ _ hk, hk]

theorem lifeLoss_per_contact_witness :
    ∃ t, update ⟨false, false, false⟩ (fun _ => 1 / 2) twoContactsState = some t ∧
      t.lives = twoContactsState.lives - hitCount twoContactsState.lives
        (afterPlatforms ⟨false, false, false⟩ (fun _ => 1 / 2)
          twoContactsLevel twoContactsState).player.rect
        (twoContactsLevel.enemies.map Enemy.movedRect) ∧
      (twoContactsState.lives ≤ 1 ∨ (twoContactsLevel.enemies.map Enemy.movedRect).countP
          (fun e => collides (afterPlatforms ⟨false, false, false⟩ (fun _ => 1 / 2)
            twoContactsLevel twoContactsState).player.rect e) = 0 →
        t.lives = twoContactsState.lives - (twoContactsLevel.enemies.map Enemy.movedRect).countP
          (fun e => collides (afterPlatforms ⟨false, false, false⟩ (fun _ => 1 / 2)
            twoContactsLevel twoContactsState).player.rect e)) :=
  lifeLoss_per_contact ⟨false, false, false⟩ (fun _ => 1 / 2) twoContactsState twoContactsLevel
    (by decide!) (by decide!) (by decide!)

/-! ## Screen shake -/

theorem platformStep_onGround (pf : Platform) (p : Player) (sh : ℚ) :
    ((platformStep pf p sh).2.1.onGround = p.onGround ∧ (platformStep pf p sh).2.2 = sh) ∨
      ((platformStep pf p sh).2.1.onGround = true ∧ (platformStep pf p sh).2.2 = 5) := by
  simp only [platformStep]
  split_ifs
  · exact Or.inr ⟨rfl, rfl⟩
  · exact Or.inl ⟨rfl, rfl⟩
  · exact Or.inl ⟨rfl, rfl⟩

theorem platformLoop_onGround_of_true (pfs : List Platform) (p : Player) (sh : ℚ)
    (h : p.onGround = true) : (platformLoop pfs p sh).player.onGround = true := by
  induction pfs generalizing p sh with
  | nil => exact h
  | cons pf rest ih =>
    simp only [platformLoop]
    apply ih
    rcases platformStep_onGround pf p sh with ⟨h1, -⟩ | ⟨h1, -⟩
    · rw [h1]; exact h
    · exact h1

theorem platformLoop_shake (pfs : List Platform) (p : Player) (sh : ℚ) :
    ((platformLoop pfs p sh).player.onGround = p.onGround ∧ (platformLoop pfs p sh).shake = sh) ∨
      ((platformLoop pfs p sh).player.onGround = true ∧ (platformLoop pfs p sh).shake = 5) := by
  induction pfs generalizing p sh with
  | nil => exact Or.inl ⟨rfl, rfl⟩
  | cons pf rest ih =>
    simp only [platformLoop]
    rcases platformStep_onGround pf p sh with ⟨h1, h2⟩ | ⟨h1, h2⟩
    · rcases ih (platformStep pf p sh).2.1 (platformStep pf p sh).2.2 with ⟨h3, h4⟩ | ⟨h3, h4⟩
      · exact Or.inl ⟨h3.trans h1, h4.trans h2⟩
      · exact Or.inr ⟨h3, h4⟩
    · refine Or.inr ⟨platformLoop_onGround_of_true _ _ _ h1, ?_⟩
      rcases ih (platformStep pf p sh).2.1 (platformStep pf p sh).2.2 with ⟨-, h4⟩ | ⟨-, h4⟩
      · exact h4.trans h2
      · exact h4

theorem enemyLoop_lives_le (rnd : ℕ → ℚ) (chaos : ℤ) (es : List Enemy) (n : ℕ) (s : State) :
    (enemyLoop rnd chaos es n s).state.lives ≤ s.lives := by
  rw [enemyLoop_hitCount]
  omega

theorem enemyLoop_eq_of_lives (rnd : ℕ → ℚ) (chaos : ℤ) (es : List Enemy) (n : ℕ) (s : State)
    (h : (enemyLoop rnd chaos es n s).state.lives = s.lives) :
    (enemyLoop rnd chaos es n s).state = s := by
  induction es generalizing n s with
  | nil => rfl
  | cons e rest ih =>
    simp only [enemyLoop] at h ⊢
    by_cases hc : collides s.player.rect (enemyMove rnd chaos e n).1.rect = true
    · simp only [hc, if_true] at h
      have := enemyLoop_lives_le rnd chaos rest (loseLife rnd (enemyMove rnd chaos e n).2 s).2
        (loseLife rnd (enemyMove rnd chaos e n).2 s).1
      rw [loseLife_lives] at this
      omega
    · simp only [hc, if_false, Bool.false_eq_true] at h ⊢
      exact ih _ _ h

theorem enemyLoop_shake (rnd : ℕ → ℚ) (chaos : ℤ) (es : List Enemy) (n : ℕ) (s : State) :
    (enemyLoop rnd chaos es n s).state.shake = s.shake ∨
      (enemyLoop rnd chaos es n s).state.shake = 10 := by
  induction es generalizing n s with
  | nil => exact Or.inl rfl
  | cons e rest ih =>
    simp only [enemyLoop]
    by_cases hc : collides s.player.rect (enemyMove rnd chaos e n).1.rect = true
    · simp only [hc, if_true]
      rcases ih (loseLife rnd (enemyMove rnd chaos e n).2 s).2
        (loseLife rnd (enemyMove rnd chaos e n).2 s).1 with h | h
      · exact Or.inr (h.trans (loseLife_shake _ _ _))
      · exact Or.inr h
    · simp only [hc, if_false, Bool.false_eq_true]
      exact ih _ _

theorem afterPortal_shake (inp : Input) (rnd : ℕ → ℚ) (level : Level) (s : State) :
    (afterPortal inp rnd level s).shake = (afterEnemies inp rnd level s).state.shake := by
  simp only [afterPortal]
  split_ifs <;> rfl

theorem afterFallOff_shake (inp : Input) (rnd : ℕ → ℚ) (level : Level) (s : State) :
    (afterFallOff inp rnd level s).shake = s.shake ∨
      (afterFallOff inp rnd level s).shake = 5 ∨ (afterFallOff inp rnd level s).shake = 10 := by
  simp only [afterFallOff]
  split_ifs
  · exact Or.inr (Or.inr (loseLife_shake _ _ _))
  · rw [afterPortal_shake]
    simp only [afterEnemies]
    rcases enemyLoop_shake rnd level.chaos level.enemies (playerInput inp rnd s).2
      (afterPlatforms inp rnd level s) with h | h
    · rw [h]
      simp only [afterPlatforms]
      rcases platformLoop_shake level.platforms
        { playerAfterMove inp rnd level.gravity s with onGround := false }
        (playerInput inp rnd s).1.shake with ⟨-, h'⟩ | ⟨-, h'⟩
      · exact Or.inl (h'.trans (playerInput_shake _ _ _))
      · exact Or.inr (Or.inl h')
    · exact Or.inr (Or.inr h)

/-- The shake values the script produces: the non-negative multiples of 0.5. -/
theorem update_shake_half (inp : Input) (rnd : ℕ → ℚ) (s t : State)
    (h : update inp rnd s = some t) (hs : ∃ k : ℕ, s.shake = k / 2) :
    ∃ k : ℕ, t.shake = k / 2 := by
  by_cases hmode : s.gameState = .playing
  · cases hlevel : levelAt s.levels s.currentLevel with
    | none => simp [update, hmode, hlevel] at h
    | some level =>
      obtain ⟨t', ht', -, -, -, -, -, hshake, -⟩ := update_stages inp rnd s level hmode hlevel
      rw [h] at ht'
      cases ht'
      have hf : ∃ k : ℕ, (afterFallOff inp rnd level s).shake = k / 2 := by
        rcases afterFallOff_shake inp rnd level s with h1 | h1 | h1
        · rw [h1]; exact hs
        · exact ⟨10, by rw [h1]; norm_num⟩
        · exact ⟨20, by rw [h1]; norm_num⟩
      obtain ⟨k, hk⟩ := hf
      rw [hshake, hk]
      split_ifs with hpos
      · have hk1 : 1 ≤ k := by
          rcases Nat.eq_zero_or_pos k with h0 | h0
          · rw [h0] at hpos; norm_num at hpos
          · exact h0
        refine ⟨k - 1, ?_⟩
        rw [Nat.cast_sub hk1]
        push_cast
        ring
      · exact ⟨k, rfl⟩
  · simp only [update, hmode, ne_eq, not_false_eq_true, if_true, Option.some.injEq] at h
    rw [← h]
    exact hs

theorem reachable_shake_half (r : ℕ → ℚ) (s : State) (h : Reachable r s) :
    ∃ k : ℕ, s.shake = k / 2 := by
  induction h with
  | init => exact ⟨0, by simp [initialState]⟩
  | update inp rnd s t _ hu ih => exact update_shake_half inp rnd s t hu ih
  | restart s _ ih => exact ih
  | nextLevel s _ ih =>
    obtain ⟨k, hk⟩ := ih
    refine ⟨k, ?_⟩
    rw [← hk]
    simp only [nextLevel]
    split_ifs <;> rfl

/-- C10: in every state reachable from the initial session by `update` calls (any
input, any random stream), restarts and next-level clicks, shake ≥ 0; and from
such a state with shake = 0, an update with no landing (the player is not on the
ground afterwards) and no life loss (lives unchanged) leaves shake at exactly 0. -/
theorem shake_nonneg (r : ℕ → ℚ) (s : State) (h : Reachable r s) :
    0 ≤ s.shake ∧
      ∀ (inp : Input) (rnd : ℕ → ℚ) (t : State), update inp rnd s = some t →
        s.shake = 0 → t.player.onGround = false → t.lives = s.lives → t.shake = 0 := by
  constructor
  · obtain ⟨k, hk⟩ := reachable_shake_half r s h
    rw [hk]
    positivity
  · intro inp rnd t hu h0 hground hlives
    by_cases hmode : s.gameState = .playing
    · cases hlevel : levelAt s.levels s.currentLevel with
      | none => simp [update, hmode, hlevel] at hu
      | some level =>
        obtain ⟨t', ht', -, -, hl, -, hp, hshake, -⟩ := update_stages inp rnd s level hmode hlevel
        rw [hu] at ht'
        cases ht'
        have hle := enemyLoop_lives_le rnd level.chaos level.enemies (playerInput inp rnd s).2
          (afterPlatforms inp rnd level s)
        rw [afterPlatforms_lives] at hle
        have hnofall : afterFallOff inp rnd level s = afterPortal inp rnd level s := by
          simp only [afterFallOff]
          split_ifs with hfall
          · exfalso
            rw [hlives] at hl
            simp only [afterFallOff, hfall, if_true] at hl
            rw [loseLife_lives, afterPortal_lives] at hl
            simp only [afterEnemies] at hl
            omega
          · rfl
        rw [hnofall] at hl hp hshake
        rw [hlives, afterPortal_lives] at hl
        have hsame : (afterEnemies inp rnd level s).state = afterPlatforms inp rnd level s :=
          enemyLoop_eq_of_lives rnd level.chaos level.enemies (playerInput inp rnd s).2
            (afterPlatforms inp rnd level s) (by rw [afterPlatforms_lives]; exact hl.symm)
        rw [hp, afterPortal_player, hsame] at hground
        have hzero : (afterPortal inp rnd level s).shake = 0 := by
          rw [afterPortal_shake, hsame]
          simp only [afterPlatforms] at hground ⊢
          rcases platformLoop_shake level.platforms
            { playerAfterMove inp rnd level.gravity s with onGround := false }
            (playerInput inp rnd s).1.shake with ⟨-, h'⟩ | ⟨h', -⟩
          · rw [h', playerInput_shake]; exact h0
          · rw [h'] at hground; exact absurd hground (by decide)
        rw [hshake, hzero]
        norm_num
    · simp only [update, hmode, ne_eq, not_false_eq_true, if_true, Option.some.injEq] at hu
      rw [← hu]
      exact h0

theorem shake_nonneg_witness :
    0 ≤ secondFrameState.shake ∧
      ∀ (inp : Input) (rnd : ℕ → ℚ) (t : State), update inp rnd secondFrameState = some t →
        secondFrameState.shake = 0 → t.player.onGround = false →
        t.lives = secondFrameState.lives → t.shake = 0 :=
  shake_nonneg (fun _ => 1 / 2) secondFrameState
    (Reachable.update ⟨false, false, false⟩ (fun _ => 1 / 2) (initialState (fun _ => 1 / 2))
      secondFrameState Reachable.init (by decide!))

/-! ## Handlers: theorems -/

theorem loseLife_score (rnd : ℕ → ℚ) (n : ℕ) (s : State) :
    (loseLife rnd n s).1.score = s.score := by
  simp only [loseLife]
  split_ifs <;> rfl

theorem loseLife_currentLevel (rnd : ℕ → ℚ) (n : ℕ) (s : State) :
    (loseLife rnd n s).1.currentLevel = s.currentLevel := by
  simp only [loseLife]
  split_ifs <;> rfl

theorem loseLife_levels (rnd : ℕ → ℚ) (n : ℕ) (s : State) :
    (loseLife rnd n s).1.levels = s.levels := by
  simp only [loseLife]
  split_ifs <;> rfl

/-- C13: from a playing session with lives = 3 (the starting session has score 0
and currentLevel 1), three consecutive `loseLife()` calls, whatever the random
draws, leave mode `gameOver` and lives = 0 with score and currentLevel as before
the losses; after the first and after the second call the mode is still
`playing`. -/
theorem three_deaths_end_game (rnd1 rnd2 rnd3 : ℕ → ℚ) (n1 n2 n3 : ℕ) (s : State)
    (hmode : s.gameState = .playing) (hlives : s.lives = LIVES_START) :
    (loseLife rnd1 n1 s).1.gameState = .playing ∧
      (loseLife rnd2 n2 (loseLife rnd1 n1 s).1).1.gameState = .playing ∧
      (loseLife rnd3 n3 (loseLife rnd2 n2 (loseLife rnd1 n1 s).1).1).1.gameState = .gameOver ∧
      (loseLife rnd3 n3 (loseLife rnd2 n2 (loseLife rnd1 n1 s).1).1).1.lives = 0 ∧
      (loseLife rnd3 n3 (loseLife rnd2 n2 (loseLife rnd1 n1 s).1).1).1.score = s.score ∧
      (loseLife rnd3 n3 (loseLife rnd2 n2 (loseLife rnd1 n1 s).1).1).1.currentLevel =
        s.currentLevel := by
  simp only [loseLife_gameState, loseLife_lives, loseLife_score, loseLife_currentLevel, hlives,
    hmode, LIVES_START]
  norm_num

theorem three_deaths_end_game_witness :
    (loseLife (fun _ => 1 / 2) 0 (initialState (fun _ => 1 / 2))).1.gameState = .playing ∧
      (loseLife (fun _ => 1 / 3) 30
        (loseLife (fun _ => 1 / 2) 0 (initialState (fun _ => 1 / 2))).1).1.gameState = .playing ∧
      (loseLife (fun _ => 1 / 4) 60 (loseLife (fun _ => 1 / 3) 30
        (loseLife (fun _ => 1 / 2) 0 (initialState (fun _ => 1 / 2))).1).1).1.gameState =
          .gameOver ∧
      (loseLife (fun _ => 1 / 4) 60 (loseLife (fun _ => 1 / 3) 30
        (loseLife (fun _ => 1 / 2) 0 (initialState (fun _ => 1 / 2))).1).1).1.lives = 0 ∧
      (loseLife (fun _ => 1 / 4) 60 (loseLife (fun _ => 1 / 3) 30
        (loseLife (fun _ => 1 / 2) 0 (initialState (fun _ => 1 / 2))).1).1).1.score =
          (initialState (fun _ => 1 / 2)).score ∧
      (loseLife (fun _ => 1 / 4) 60 (loseLife (fun _ => 1 / 3) 30
        (loseLife (fun _ => 1 / 2) 0 (initialState (fun _ => 1 / 2))).1).1).1.currentLevel =
          (initialState (fun _ => 1 / 2)).currentLevel :=
  three_deaths_end_game (fun _ => 1 / 2) (fun _ => 1 / 3) (fun _ => 1 / 4) 0 30 60
    (initialState (fun _ => 1 / 2)) (by decide!) (by decide!)

/-- C14: the next-level click in a state with currentLevel = 5 sets mode
`gameOver` and leaves currentLevel = 5, lives and score unchanged; in a state with
currentLevel < 5 it adds 1 to currentLevel, puts the player at (100, 500) with
velocity (0, 0) and sets mode `playing`. -/
theorem nextLevel_spec (s : State) :
    (s.currentLevel = 5 →
      (nextLevel s).gameState = .gameOver ∧ (nextLevel s).currentLevel = 5 ∧
        (nextLevel s).lives = s.lives ∧ (nextLevel s).score = s.score) ∧
    (s.currentLevel < 5 →
      (nextLevel s).currentLevel = s.currentLevel + 1 ∧
        (nextLevel s).player.x = 100 ∧ (nextLevel s).player.y = 500 ∧
        (nextLevel s).player.vx = 0 ∧ (nextLevel s).player.vy = 0 ∧
        (nextLevel s).gameState = .playing) := by
  constructor
  · intro h5
    have : ¬ s.currentLevel < 5 := by omega
    rw [nextLevel, if_neg this]
    exact ⟨rfl, h5, rfl, rfl⟩
  · intro hlt
    rw [nextLevel, if_pos hlt]
    exact ⟨rfl, rfl, rfl, rfl, rfl, rfl⟩

theorem nextLevel_spec_witness :
    (nextLevel lastLevelDoneState).gameState = .gameOver ∧
      (nextLevel lastLevelDoneState).currentLevel = 5 ∧
      (nextLevel lastLevelDoneState).lives = lastLevelDoneState.lives ∧
      (nextLevel lastLevelDoneState).score = lastLevelDoneState.score :=
  (nextLevel_spec lastLevelDoneState).1 (by decide!)

/-- C16: with lives ≥ 2, `loseLife()` takes exactly one life, puts the player at
(100, 500) with velocity (0, 0), and leaves mode, score, currentLevel, the
player's onGround flag and size, and the whole level table (every platform and
enemy) unchanged. -/
theorem loseLife_respawn (rnd : ℕ → ℚ) (n : ℕ) (s : State) (h : 2 ≤ s.lives) :
    (loseLife rnd n s).1.lives = s.lives - 1 ∧
      (loseLife rnd n s).1.player.x = 100 ∧ (loseLife rnd n s).1.player.y = 500 ∧
      (loseLife rnd n s).1.player.vx = 0 ∧ (loseLife rnd n s).1.player.vy = 0 ∧
      (loseLife rnd n s).1.gameState = s.gameState ∧
      (loseLife rnd n s).1.score = s.score ∧
      (loseLife rnd n s).1.currentLevel = s.currentLevel ∧
      (loseLife rnd n s).1.player.onGround = s.player.onGround ∧
      (loseLife rnd n s).1.player.width = s.player.width ∧
      (loseLife rnd n s).1.player.height = s.player.height ∧
      (loseLife rnd n s).1.levels = s.levels := by
  have hz : ¬ s.lives - 1 ≤ 0 := by omega
  rw [loseLife_lives, loseLife_player, loseLife_gameState, loseLife_score,
    loseLife_currentLevel, loseLife_levels]
  rw [if_neg hz, if_neg hz]
  exact ⟨rfl, rfl, rfl, rfl, rfl, rfl, rfl, rfl, rfl, rfl, rfl, rfl⟩

theorem loseLife_respawn_witness :
    (loseLife (fun _ => 1 / 2) 0 twoContactsState).1.lives = twoContactsState.lives - 1 ∧
      (loseLife (fun _ => 1 / 2) 0 twoContactsState).1.player.x = 100 ∧
      (loseLife (fun _ => 1 / 2) 0 twoContactsState).1.player.y = 500 ∧
      (loseLife (fun _ => 1 / 2) 0 twoContactsState).1.player.vx = 0 ∧
      (loseLife (fun _ => 1 / 2) 0 twoContactsState).1.player.vy = 0 ∧
      (loseLife (fun _ => 1 / 2) 0 twoContactsState).1.gameState = twoContactsState.gameState ∧
      (loseLife (fun _ => 1 / 2) 0 twoContactsState).1.score = twoContactsState.score ∧
      (loseLife (fun _ => 1 / 2) 0 twoContactsState).1.currentLevel =
        twoContactsState.currentLevel ∧
      (loseLife (fun _ => 1 / 2) 0 twoContactsState).1.player.onGround =
        twoContactsState.player.onGround ∧
      (loseLife (fun _ => 1 / 2) 0 twoContactsState).1.player.width =
        twoContactsState.player.width ∧
      (loseLife (fun _ => 1 / 2) 0 twoContactsState).1.player.height =
        twoContactsState.player.height ∧
      (loseLife (fun _ => 1 / 2) 0 twoContactsState).1.levels = twoContactsState.levels :=
  loseLife_respawn (fun _ => 1 / 2) 0 twoContactsState (by decide!)

/-! ## Score and level index -/

theorem playerInput_score (inp : Input) (rnd : ℕ → ℚ) (s : State) :
    (playerInput inp rnd s).1.score = s.score := by
  simp only [playerInput]
  split_ifs <;> rfl

theorem playerInput_currentLevel (inp : Input) (rnd : ℕ → ℚ) (s : State) :
    (playerInput inp rnd s).1.currentLevel = s.currentLevel := by
  simp only [playerInput]
  split_ifs <;> rfl

theorem enemyLoop_score (rnd : ℕ → ℚ) (chaos : ℤ) (es : List Enemy) (n : ℕ) (s : State) :
    (enemyLoop rnd chaos es n s).state.score = s.score := by
  induction es generalizing n s with
  | nil => rfl
  | cons e rest ih =>
    simp only [enemyLoop]
    rw [ih]
    split_ifs
    · exact loseLife_score _ _ _
    · rfl

theorem enemyLoop_currentLevel (rnd : ℕ → ℚ) (chaos : ℤ) (es : List Enemy) (n : ℕ)
    (s : State) : (enemyLoop rnd chaos es n s).state.currentLevel = s.currentLevel := by
  induction es generalizing n s with
  | nil => rfl
  | cons e rest ih =>
    simp only [enemyLoop]
    rw [ih]
    split_ifs
    · exact loseLife_currentLevel _ _ _
    · rfl

theorem afterEnemies_score (inp : Input) (rnd : ℕ → ℚ) (level : Level) (s : State) :
    (afterEnemies inp rnd level s).state.score = s.score := by
  simp only [afterEnemies]
  rw [enemyLoop_score]
  exact playerInput_score inp rnd s

theorem afterEnemies_currentLevel (inp : Input) (rnd : ℕ → ℚ) (level : Level) (s : State) :
    (afterEnemies inp rnd level s).state.currentLevel = s.currentLevel := by
  simp only [afterEnemies]
  rw [enemyLoop_currentLevel]
  exact playerInput_currentLevel inp rnd s

theorem afterFallOff_currentLevel (inp : Input) (rnd : ℕ → ℚ) (level : Level) (s : State) :
    (afterFallOff inp rnd level s).currentLevel = s.currentLevel := by
  have hp : (afterPortal inp rnd level s).currentLevel = s.currentLevel := by
    simp only [afterPortal]
    split_ifs
    · exact afterEnemies_currentLevel inp rnd level s
    · exact afterEnemies_currentLevel inp rnd level s
  simp only [afterFallOff]
  split_ifs
  · rw [loseLife_currentLevel, hp]
  · exact hp

theorem afterFallOff_score (inp : Input) (rnd : ℕ → ℚ) (level : Level) (s : State) :
    (afterFallOff inp rnd level s).score = s.score +
      (if collides (afterEnemies inp rnd level s).state.player.rect level.portal = true then
        100 * s.currentLevel else 0) := by
  have hp : (afterPortal inp rnd level s).score = s.score +
      (if collides (afterEnemies inp rnd level s).state.player.rect level.portal = true then
        100 * s.currentLevel else 0) := by
    simp only [afterPortal]
    split_ifs
    · show (afterEnemies inp rnd level s).state.score +
        100 * (afterEnemies inp rnd level s).state.currentLevel = _
      rw [afterEnemies_score, afterEnemies_currentLevel]
    · rw [afterEnemies_score, add_zero]
  by_cases hf : (afterPortal inp rnd level s).player.y > CANVAS_HEIGHT
  · rw [afterFallOff, if_pos hf, loseLife_score, hp]
  · rw [afterFallOff, if_neg hf, hp]

/-- C12: in every state where `update` returns (mode not `playing`, or the active
level exists), one update leaves currentLevel unchanged and changes score by
exactly 100 * currentLevel if the mode is `playing` and the player overlaps the
portal at the portal test (line 188), and by 0 otherwise; `levelComplete()`
itself sets mode `levelComplete` and adds exactly 100 * currentLevel to score
(level 3 with prior score 50 gives 350). -/
theorem level_completion_scoring (inp : Input) (rnd : ℕ → ℚ) (s : State) (level : Level)
    (h : s.gameState ≠ .playing ∨ levelAt s.levels s.currentLevel = some level) :
    ∃ t, update inp rnd s = some t ∧ t.currentLevel = s.currentLevel ∧
      t.score = s.score +
        (if s.gameState = .playing ∧
            collides (afterEnemies inp rnd level s).state.player.rect level.portal = true then
          100 * s.currentLevel else 0) ∧
      (levelComplete s).gameState = .levelComplete ∧
      (levelComplete s).score = s.score + 100 * s.currentLevel ∧
      (levelComplete s).currentLevel = s.currentLevel ∧
      (s.currentLevel = 3 → s.score = 50 → (levelComplete s).score = 350) := by
  have hlc : (levelComplete s).gameState = .levelComplete ∧
      (levelComplete s).score = s.score + 100 * s.currentLevel ∧
      (levelComplete s).currentLevel = s.currentLevel ∧
      (s.currentLevel = 3 → s.score = 50 → (levelComplete s).score = 350) := by
    refine ⟨rfl, rfl, rfl, ?_⟩
    intro h3 h50
    show s.score + 100 * s.currentLevel = 350
    rw [h3, h50]
    norm_num
  by_cases hmode : s.gameState = .playing
  · rcases h with h | hlevel
    · exact absurd hmode h
    · obtain ⟨t, ht, -, hcl, -, hsc, -⟩ := update_stages inp rnd s level hmode hlevel
      refine ⟨t, ht, ?_, ?_, hlc⟩
      · rw [hcl, afterFallOff_currentLevel]
      · rw [hsc, afterFallOff_score]
        simp only [hmode, true_and]
  · refine ⟨s, ?_, rfl, ?_, hlc⟩
    · simp [update, hmode]
    · simp only [hmode, false_and, if_false, add_zero]

theorem level_completion_scoring_witness :
    ∃ t, update ⟨false, false, false⟩ (fun _ => 1 / 2) atPortalState = some t ∧
      t.currentLevel = atPortalState.currentLevel ∧
      t.score = atPortalState.score +
        (if atPortalState.gameState = .playing ∧
            collides (afterEnemies ⟨false, false, false⟩ (fun _ => 1 / 2) levelThree
              atPortalState).state.player.rect levelThree.portal = true then
          100 * atPortalState.currentLevel else 0) ∧
      (levelComplete atPortalState).gameState = .levelComplete ∧
      (levelComplete atPortalState).score =
        atPortalState.score + 100 * atPortalState.currentLevel ∧
      (levelComplete atPortalState).currentLevel = atPortalState.currentLevel ∧
      (atPortalState.currentLevel = 3 → atPortalState.score = 50 →
        (levelComplete atPortalState).score = 350) :=
  level_completion_scoring ⟨false, false, false⟩ (fun _ => 1 / 2) atPortalState levelThree
    (Or.inr (by decide!))

theorem update_currentLevel_levels (inp : Input) (rnd : ℕ → ℚ) (s t : State)
    (h : update inp rnd s = some t) :
    t.currentLevel = s.currentLevel ∧ t.levels.length = s.levels.length := by
  by_cases hmode : s.gameState = .playing
  · cases hlevel : levelAt s.levels s.currentLevel with
    | none => simp [update, hmode, hlevel] at h
    | some level =>
      obtain ⟨t', ht', -, hcl, -, -, -, -, -, hlv⟩ := update_stages inp rnd s level hmode hlevel
      rw [h] at ht'
      cases ht'
      refine ⟨?_, ?_⟩
      · rw [hcl, afterFallOff_currentLevel]
      · rw [hlv, List.length_set]
  · simp only [update, hmode, ne_eq, not_false_eq_true, if_true, Option.some.injEq] at h
    rw [← h]
    exact ⟨rfl, rfl⟩

theorem levelAt_isSome (ls : List Level) (c : ℤ) (h1 : 1 ≤ c) (h2 : c ≤ ls.length) :
    ∃ level, levelAt ls c = some level ∧ level ∈ ls := by
  have hlt : (c - 1).toNat < ls.length := by omega
  refine ⟨ls.get ⟨(c - 1).toNat, hlt⟩, ?_, List.get_mem _ _ _⟩
  simp only [levelAt, h1, if_true]
  exact List.get?_eq_get hlt

theorem update_isSome (inp : Input) (rnd : ℕ → ℚ) (s : State)
    (h1 : 1 ≤ s.currentLevel) (h2 : s.currentLevel ≤ s.levels.length) :
    ∃ t, update inp rnd s = some t := by
  by_cases hmode : s.gameState = .playing
  · obtain ⟨level, hlevel, -⟩ := levelAt_isSome s.levels s.currentLevel h1 h2
    obtain ⟨t, ht, -⟩ := update_stages inp rnd s level hmode hlevel
    exact ⟨t, ht⟩
  · exact ⟨s, by simp [update, hmode]⟩

theorem reachable_level_range (r : ℕ → ℚ) (s : State) (h : Reachable r s) :
    1 ≤ s.currentLevel ∧ s.currentLevel ≤ 5 ∧ s.levels.length = 5 := by
  induction h with
  | init => exact ⟨by show (1 : ℤ) ≤ 1; omega, by show (1 : ℤ) ≤ 5; omega, rfl⟩
  | update inp rnd s t _ hu ih =>
    obtain ⟨hc, hl⟩ := update_currentLevel_levels inp rnd s t hu
    rw [hc, hl]
    exact ih
  | restart s _ ih => exact ⟨by show (1 : ℤ) ≤ 1; omega, by show (1 : ℤ) ≤ 5; omega, ih.2.2⟩
  | nextLevel s _ ih =>
    obtain ⟨h1, h2, h3⟩ := ih
    simp only [nextLevel]
    split_ifs with hlt
    · exact ⟨by show 1 ≤ s.currentLevel + 1; omega, by show s.currentLevel + 1 ≤ 5; omega, h3⟩
    · exact ⟨h1, h2, h3⟩

/-- C15: in every reachable state (the initial session, then any `update`, restart
and next-level click) 1 ≤ currentLevel ≤ 5 and the table has its five levels, so
the lookup `levels[currentLevel - 1]` finds one of them and `update` returns;
`update`, `loseLife()` and `levelComplete()` leave currentLevel as it is, the
restart sets it to 1 and the next-level click keeps it within 1..5. -/
theorem level_index_valid (r : ℕ → ℚ) (s : State) (h : Reachable r s) :
    1 ≤ s.currentLevel ∧ s.currentLevel ≤ 5 ∧ s.levels.length = 5 ∧
      (∃ level, levelAt s.levels s.currentLevel = some level ∧ level ∈ s.levels) ∧
      (∀ (inp : Input) (rnd : ℕ → ℚ),
        ∃ t, update inp rnd s = some t ∧ t.currentLevel = s.currentLevel) ∧
      (∀ (rnd : ℕ → ℚ) (n : ℕ), (loseLife rnd n s).1.currentLevel = s.currentLevel) ∧
      (levelComplete s).currentLevel = s.currentLevel ∧
      (restart s).currentLevel = 1 ∧
      1 ≤ (nextLevel s).currentLevel ∧ (nextLevel s).currentLevel ≤ 5 := by
  obtain ⟨h1, h2, h3⟩ := reachable_level_range r s h
  obtain ⟨hn1, hn2, -⟩ := reachable_level_range r (nextLevel s) (Reachable.nextLevel s h)
  refine ⟨h1, h2, h3, levelAt_isSome s.levels s.currentLevel h1 (by rw [h3]; exact_mod_cast h2),
    ?_, fun rnd n => loseLife_currentLevel rnd n s, rfl, rfl, hn1, hn2⟩
  intro inp rnd
  obtain ⟨t, ht⟩ := update_isSome inp rnd s h1 (by rw [h3]; exact_mod_cast h2)
  exact ⟨t, ht, (update_currentLevel_levels inp rnd s t ht).1⟩

theorem level_index_valid_witness :
    1 ≤ (nextLevel secondFrameState).currentLevel ∧
      (nextLevel secondFrameState).currentLevel ≤ 5 ∧
      (nextLevel secondFrameState).levels.length = 5 ∧
      (∃ level, levelAt (nextLevel secondFrameState).levels
        (nextLevel secondFrameState).currentLevel = some level ∧
        level ∈ (nextLevel secondFrameState).levels) ∧
      (∀ (inp : Input) (rnd : ℕ → ℚ),
        ∃ t, update inp rnd (nextLevel secondFrameState) = some t ∧
          t.currentLevel = (nextLevel secondFrameState).currentLevel) ∧
      (∀ (rnd : ℕ → ℚ) (n : ℕ), (loseLife rnd n (nextLevel secondFrameState)).1.currentLevel =
        (nextLevel secondFrameState).currentLevel) ∧
      (levelComplete (nextLevel secondFrameState)).currentLevel =
        (nextLevel secondFrameState).currentLevel ∧
      (restart (nextLevel secondFrameState)).currentLevel = 1 ∧
      1 ≤ (nextLevel (nextLevel secondFrameState)).currentLevel ∧
      (nextLevel (nextLevel secondFrameState)).currentLevel ≤ 5 :=
  level_index_valid (fun _ => 1 / 2) (nextLevel secondFrameState)
    (Reachable.nextLevel _
      (Reachable.update ⟨false, false, false⟩ (fun _ => 1 / 2) (initialState (fun _ => 1 / 2))
        secondFrameState Reachable.init (by decide!)))

/-! ## Platform resolution -/

theorem platformDrift_y (pf : Platform) : (platformDrift pf).y = pf.y := by
  simp only [platformDrift]
  split
  · split_ifs <;> rfl
  · rfl

theorem platformStep_player (pf : Platform) (p : Player) (sh : ℚ) :
    (platformStep pf p sh).2.1 =
      if collides p.rect (platformDrift pf).rect = true ∧ p.vy > 0 ∧ p.y < pf.y then
        { p with y := pf.y - p.height, vy := 0, onGround := true }
      else p := by
  simp only [platformStep, platformDrift_y]
  by_cases hc : collides p.rect (platformDrift pf).rect = true
  · by_cases hl : p.vy > 0 ∧ p.y < pf.y
    · simp only [hc, hl, and_self, if_true]
    · simp only [hc, hl, if_true, if_false, true_and]
  · simp only [hc, if_false, false_and, Bool.false_eq_true]

theorem platformStep_shake (pf : Platform) (p : Player) (sh : ℚ) :
    (platformStep pf p sh).2.2 =
      if collides p.rect (platformDrift pf).rect = true ∧ p.vy > 0 ∧ p.y < pf.y then 5
      else sh := by
  simp only [platformStep, platformDrift_y]
  by_cases hc : collides p.rect (platformDrift pf).rect = true
  · by_cases hl : p.vy > 0 ∧ p.y < pf.y
    · simp only [hc, hl, and_self, if_true]
    · simp only [hc, hl, if_true, if_false, true_and]
  · simp only [hc, if_false, false_and, Bool.false_eq_true]

theorem update_no_contact (inp : Input) (rnd : ℕ → ℚ) (s : State) (level : Level)
    (hmode : s.gameState = .playing)
    (hlevel : levelAt s.levels s.currentLevel = some level)
    (henemy : ∀ e ∈ level.enemies,
      collides (afterPlatforms inp rnd level s).player.rect e.movedRect = false)
    (hfloor : ¬ ((afterPlatforms inp rnd level s).player.y > CANVAS_HEIGHT)) :
    ∃ t, update inp rnd s = some t ∧ t.player = (afterPlatforms inp rnd level s).player ∧
      t.lives = s.lives ∧
      t.shake = (if (afterPlatforms inp rnd level s).shake > 0 then
        (afterPlatforms inp rnd level s).shake - 1 / 2 else (afterPlatforms inp rnd level s).shake) := by
  obtain ⟨t, ht, -, -, hl, -, hp, hsh, -⟩ := update_stages inp rnd s level hmode hlevel
  have hen : (afterEnemies inp rnd level s).state = afterPlatforms inp rnd level s :=
    enemyLoop_no_contact rnd level.chaos level.enemies (playerInput inp rnd s).2
      (afterPlatforms inp rnd level s) henemy
  have hpp := afterPortal_player inp rnd level s
  rw [hen] at hpp
  have hff : afterFallOff inp rnd level s = afterPortal inp rnd level s := by
    rw [afterFallOff, if_neg (by rw [hpp]; exact hfloor)]
  rw [hff] at hl hp hsh
  refine ⟨t, ht, ?_, ?_, ?_⟩
  · rw [hp, hpp]
  · rw [hl, afterPortal_lives, hen, afterPlatforms_lives]
  · rw [hsh, afterPortal_shake, hen]

/-- C17: in a playing state whose level has a single platform `pf`, with no enemy
contact and no fall-off for the player as the platform step leaves it, let y' and
vy' be the player's y and vy after gravity and position integration. If the
player at y' overlaps the platform (after the platform's own drift), vy' > 0 and
y' < pf.y, then after `update` player.y = pf.y - player.height, player.vy = 0 and
player.onGround = true; otherwise player.y = y', player.vy = vy' and
player.onGround = false. -/
theorem platform_resolution (inp : Input) (rnd : ℕ → ℚ) (s : State) (level : Level)
    (pf : Platform)
    (hmode : s.gameState = .playing)
    (hlevel : levelAt s.levels s.currentLevel = some level)
    (hplat : level.platforms = [pf])
    (henemy : ∀ e ∈ level.enemies,
      collides (afterPlatforms inp rnd level s).player.rect e.movedRect = false)
    (hfloor : ¬ ((afterPlatforms inp rnd level s).player.y > CANVAS_HEIGHT)) :
    ∃ t, update inp rnd s = some t ∧
      ((collides (playerAfterMove inp rnd level.gravity s).rect (platformDrift pf).rect = true ∧
          (playerAfterMove inp rnd level.gravity s).vy > 0 ∧
          (playerAfterMove inp rnd level.gravity s).y < pf.y) →
        t.player.y = pf.y - s.player.height ∧ t.player.vy = 0 ∧ t.player.onGround = true) ∧
      (¬ (collides (playerAfterMove inp rnd level.gravity s).rect (platformDrift pf).rect = true ∧
          (playerAfterMove inp rnd level.gravity s).vy > 0 ∧
          (playerAfterMove inp rnd level.gravity s).y < pf.y) →
        t.player.y = (playerAfterMove inp rnd level.gravity s).y ∧
          t.player.vy = (playerAfterMove inp rnd level.gravity s).vy ∧
          t.player.onGround = false) := by
  obtain ⟨t, ht, hp, -⟩ := update_no_contact inp rnd s level hmode hlevel henemy hfloor
  refine ⟨t, ht, ?_⟩
  have hpl : (afterPlatforms inp rnd level s).player =
      (platformStep pf { playerAfterMove inp rnd level.gravity s with onGround := false }
        (playerInput inp rnd s).1.shake).2.1 := by
    simp only [afterPlatforms, hplat, platformLoop]
  rw [hp, hpl, platformStep_player]
  have hh := playerAfterMove_height inp rnd level.gravity s
  constructor
  · intro hc
    have hc' : collides (Player.rect
          { playerAfterMove inp rnd level.gravity s with onGround := false })
          (platformDrift pf).rect = true ∧
        (playerAfterMove inp rnd level.gravity s).vy > 0 ∧
        (playerAfterMove inp rnd level.gravity s).y < pf.y := hc
    rw [if_pos hc']
    exact ⟨by rw [← hh], rfl, rfl⟩
  · intro hc
    have hc' : ¬ (collides (Player.rect
          { playerAfterMove inp rnd level.gravity s with onGround := false })
          (platformDrift pf).rect = true ∧
        (playerAfterMove inp rnd level.gravity s).vy > 0 ∧
        (playerAfterMove inp rnd level.gravity s).y < pf.y) := hc
    rw [if_neg hc']
    exact ⟨rfl, rfl, rfl⟩

theorem platform_resolution_witness :
    ∃ t, update ⟨false, false, false⟩ (fun _ => 0) (onePlatformState 549 10) = some t ∧
      ((collides (playerAfterMove ⟨false, false, false⟩ (fun _ => 0) onePlatformLevel.gravity
            (onePlatformState 549 10)).rect
            (platformDrift ⟨0, 550, 200, 50, none, none⟩).rect = true ∧
          (playerAfterMove ⟨false, false, false⟩ (fun _ => 0) onePlatformLevel.gravity
            (onePlatformState 549 10)).vy > 0 ∧
          (playerAfterMove ⟨false, false, false⟩ (fun _ => 0) onePlatformLevel.gravity
            (onePlatformState 549 10)).y < (Platform.mk 0 550 200 50 none none).y) →
        t.player.y = (Platform.mk 0 550 200 50 none none).y -
            (onePlatformState 549 10).player.height ∧
          t.player.vy = 0 ∧ t.player.onGround = true) ∧
      (¬ (collides (playerAfterMove ⟨false, false, false⟩ (fun _ => 0) onePlatformLevel.gravity
            (onePlatformState 549 10)).rect
            (platformDrift ⟨0, 550, 200, 50, none, none⟩).rect = true ∧
          (playerAfterMove ⟨false, false, false⟩ (fun _ => 0) onePlatformLevel.gravity
            (onePlatformState 549 10)).vy > 0 ∧
          (playerAfterMove ⟨false, false, false⟩ (fun _ => 0) onePlatformLevel.gravity
            (onePlatformState 549 10)).y < (Platform.mk 0 550 200 50 none none).y) →
        t.player.y = (playerAfterMove ⟨false, false, false⟩ (fun _ => 0) onePlatformLevel.gravity
            (onePlatformState 549 10)).y ∧
          t.player.vy = (playerAfterMove ⟨false, false, false⟩ (fun _ => 0)
            onePlatformLevel.gravity (onePlatformState 549 10)).vy ∧
          t.player.onGround = false) :=
  platform_resolution ⟨false, false, false⟩ (fun _ => 0) (onePlatformState 549 10)
    onePlatformLevel ⟨0, 550, 200, 50, none, none⟩ (by decide!) (by decide!) (by decide!)
    (by simp [onePlatformLevel]) (by decide!)

/-! ## Standing on a platform -/

theorem platformLoop_append (a b : List Platform) (p : Player) (sh : ℚ) :
    (platformLoop (a ++ b) p sh).player =
        (platformLoop b (platformLoop a p sh).player (platformLoop a p sh).shake).player ∧
      (platformLoop (a ++ b) p sh).shake =
        (platformLoop b (platformLoop a p sh).player (platformLoop a p sh).shake).shake := by
  induction a generalizing p sh with
  | nil => exact ⟨rfl, rfl⟩
  | cons pf rest ih =>
    simp only [List.cons_append, platformLoop]
    exact ih _ _

theorem platformLoop_no_contact (pfs : List Platform) (p : Player) (sh : ℚ)
    (h : ∀ q ∈ pfs, collides p.rect (platformDrift q).rect = false) :
    (platformLoop pfs p sh).player = p ∧ (platformLoop pfs p sh).shake = sh := by
  induction pfs with
  | nil => exact ⟨rfl, rfl⟩
  | cons pf rest ih =>
    have hc : ¬ (collides p.rect (platformDrift pf).rect = true ∧ p.vy > 0 ∧ p.y < pf.y) := by
      rw [h pf (List.mem_cons_self _ _)]
      simp
    simp only [platformLoop]
    rw [platformStep_player, platformStep_shake, if_neg hc, if_neg hc]
    exact ih (fun q hq => h q (List.mem_cons_of_mem _ hq))

theorem playerInput_no_jump (inp : Input) (rnd : ℕ → ℚ) (s : State)
    (hj : inp.jumpPressed = false) :
    (playerInput inp rnd s).1.player.y = s.player.y ∧
      (playerInput inp rnd s).1.player.vy = s.player.vy ∧
      (playerInput inp rnd s).1.shake = s.shake := by
  simp only [playerInput, hj, Bool.false_and, Bool.false_eq_true, if_false]
  split_ifs <;> simp

/-- C18 fails as stated, in two ways. With gravity 40 (0 < 40 < platform height
50, but above the player's height 32) the player resting at y = 518 on the
platform (0, 550, 200, 50) is integrated to y = 558, below the platform's top, and
is not landed: after `update` y = 558, vy = 40, onGround = false, shake = 0. And on
a platform below the canvas bottom (y = 650, player at 618 > 600) the player
lands and then falls off: after `update` lives = 2, y = 500 and shake = 9.5. -/
theorem standing_still_counterexample :
    ((restingState heavyLevel 518).gameState = .playing ∧
      levelAt (restingState heavyLevel 518).levels (restingState heavyLevel 518).currentLevel =
        some heavyLevel ∧
      (restingState heavyLevel 518).player.y =
        (Platform.mk 0 550 200 50 none none).y - (restingState heavyLevel 518).player.height ∧
      (restingState heavyLevel 518).player.vy = 0 ∧
      0 < heavyLevel.gravity ∧ heavyLevel.gravity < (Platform.mk 0 550 200 50 none none).height ∧
      (update ⟨false, false, false⟩ (fun _ => 0) (restingState heavyLevel 518)).map
        (fun t => (t.player.y, t.player.vy, t.player.onGround, t.shake)) =
        some (558, 40, false, 0)) ∧
    ((restingState sunkenLevel 618).gameState = .playing ∧
      levelAt (restingState sunkenLevel 618).levels (restingState sunkenLevel 618).currentLevel =
        some sunkenLevel ∧
      (restingState sunkenLevel 618).player.y =
        (Platform.mk 0 650 200 50 none none).y - (restingState sunkenLevel 618).player.height ∧
      (restingState sunkenLevel 618).player.vy = 0 ∧
      0 < sunkenLevel.gravity ∧ sunkenLevel.gravity < (Platform.mk 0 650 200 50 none none).height ∧
      (update ⟨false, false, false⟩ (fun _ => 0) (restingState sunkenLevel 618)).map
        (fun t => (t.player.y, t.player.vy, t.player.onGround, t.shake, t.lives)) =
        some (500, 0, true, 19 / 2, 2)) := by
  decide!

theorem playerAfterMove_no_jump (inp : Input) (rnd : ℕ → ℚ) (g : ℚ) (s : State)
    (hj : inp.jumpPressed = false) :
    (playerAfterMove inp rnd g s).y = s.player.y + (s.player.vy + g) ∧
      (playerAfterMove inp rnd g s).vy = s.player.vy + g := by
  obtain ⟨hy, hvy, -⟩ := playerInput_no_jump inp rnd s hj
  simp only [playerAfterMove, applyGravity, hy, hvy, and_self]

/-- C18 (amended): in mode `playing`, if the player rests on a platform `pf` with no
`vx` that is not falling (player.y = pf.y - player.height, vy = 0), not below the
canvas bottom (player.y ≤ CANVAS_HEIGHT), still overlaps it horizontally after
this frame's horizontal move, jump is not held, the level's gravity g satisfies
0 < g < pf.height and g < player.height, and the player overlaps no other
platform (those before `pf` in the list at the integrated position, those after
it at the resting position) and no enemy, then after `update` player.y is
unchanged, player.vy = 0, player.onGround = true and shake = 4.5. -/
theorem standing_still (inp : Input) (rnd : ℕ → ℚ) (s : State) (level : Level)
    (pre post : List Platform) (pf : Platform)
    (hmode : s.gameState = .playing)
    (hlevel : levelAt s.levels s.currentLevel = some level)
    (hplat : level.platforms = pre ++ pf :: post)
    (hvx : pf.vx = none) (_hfall : pf.falling ≠ some true)
    (hrest : s.player.y = pf.y - s.player.height) (hvy : s.player.vy = 0)
    (hfloor : s.player.y ≤ CANVAS_HEIGHT)
    (hx1 : (playerAfterMove inp rnd level.gravity s).x < pf.x + pf.width)
    (hx2 : pf.x < (playerAfterMove inp rnd level.gravity s).x + s.player.width)
    (hjump : inp.jumpPressed = false)
    (hg0 : 0 < level.gravity) (hg1 : level.gravity < pf.height)
    (hg2 : level.gravity < s.player.height)
    (hpre : ∀ q ∈ pre, collides (playerAfterMove inp rnd level.gravity s).rect
      (platformDrift q).rect = false)
    (hpost : ∀ q ∈ post, collides ⟨(playerAfterMove inp rnd level.gravity s).x, s.player.y,
      s.player.width, s.player.height⟩ (platformDrift q).rect = false)
    (henemy : ∀ e ∈ level.enemies, collides ⟨(playerAfterMove inp rnd level.gravity s).x,
      s.player.y, s.player.width, s.player.height⟩ e.movedRect = false) :
    ∃ t, update inp rnd s = some t ∧ t.player.y = s.player.y ∧ t.player.vy = 0 ∧
      t.player.onGround = true ∧ t.shake = 9 / 2 := by
  have hh := playerAfterMove_height inp rnd level.gravity s
  have hw := playerAfterMove_width inp rnd level.gravity s
  obtain ⟨hy', hvy'⟩ := playerAfterMove_no_jump inp rnd level.gravity s hjump
  rw [hvy, zero_add] at hy' hvy'
  have hdrift : platformDrift pf = pf := by simp [platformDrift, hvx]
  -- the platforms before `pf` leave the player as integrated
  have h1 := platformLoop_no_contact pre
    { playerAfterMove inp rnd level.gravity s with onGround := false }
    (playerInput inp rnd s).1.shake hpre
  -- `pf` lands the player
  have hland : collides (Player.rect
        { playerAfterMove inp rnd level.gravity s with onGround := false })
        (platformDrift pf).rect = true ∧
      (playerAfterMove inp rnd level.gravity s).vy > 0 ∧
      (playerAfterMove inp rnd level.gravity s).y < pf.y := by
    refine ⟨?_, ?_, ?_⟩
    · rw [hdrift, collides_eq_true_iff]
      simp only [Player.rect, Platform.rect, hh, hw, hy']
      refine ⟨hx1, hx2, ?_, ?_⟩ <;> linarith
    · rw [hvy']; exact hg0
    · rw [hy']; linarith
  have hlanded : ∀ sh, platformLoop (pf :: post)
        { playerAfterMove inp rnd level.gravity s with onGround := false } sh =
      ⟨(platformLoop (pf :: post)
          { playerAfterMove inp rnd level.gravity s with onGround := false } sh).platforms,
        { playerAfterMove inp rnd level.gravity s with
          y := s.player.y, vy := 0, onGround := true }, 5⟩ := by
    intro sh
    have h2 := platformLoop_no_contact post
      { playerAfterMove inp rnd level.gravity s with
        y := s.player.y, vy := 0, onGround := true } 5
      (by
        intro q hq
        have := hpost q hq
        simpa only [Player.rect, hh, hw] using this)
    have hp2 : (platformStep pf
        { playerAfterMove inp rnd level.gravity s with onGround := false } sh).2.1 =
        { playerAfterMove inp rnd level.gravity s with
          y := s.player.y, vy := 0, onGround := true } := by
      rw [platformStep_player, if_pos hland]
      simp only [hh, hrest]
    have hs2 : (platformStep pf
        { playerAfterMove inp rnd level.gravity s with onGround := false } sh).2.2 = 5 := by
      rw [platformStep_shake, if_pos hland]
    simp only [platformLoop, hp2, hs2, h2.1, h2.2]
  have hall : (afterPlatforms inp rnd level s).player =
        { playerAfterMove inp rnd level.gravity s with
          y := s.player.y, vy := 0, onGround := true } ∧
      (afterPlatforms inp rnd level s).shake = 5 := by
    have ha := platformLoop_append pre (pf :: post)
      { playerAfterMove inp rnd level.gravity s with onGround := false }
      (playerInput inp rnd s).1.shake
    rw [h1.1, h1.2, hlanded] at ha
    simp only [afterPlatforms, hplat]
    exact ha
  obtain ⟨t, ht, hp, -, hsh⟩ := update_no_contact inp rnd s level hmode hlevel
    (by
      intro e he
      rw [hall.1]
      have := henemy e he
      simpa only [Player.rect, hh, hw] using this)
    (by rw [hall.1]; exact not_lt.mpr hfloor)
  refine ⟨t, ht, ?_, ?_, ?_, ?_⟩
  · rw [hp, hall.1]
  · rw [hp, hall.1]
  · rw [hp, hall.1]
  · rw [hsh, hall.2]
    norm_num

theorem standing_still_witness :
    ∃ t, update ⟨false, false, false⟩ (fun _ => 0) (restingState onePlatformLevel 518) = some t ∧
      t.player.y = (restingState onePlatformLevel 518).player.y ∧ t.player.vy = 0 ∧
      t.player.onGround = true ∧ t.shake = 9 / 2 :=
  standing_still ⟨false, false, false⟩ (fun _ => 0) (restingState onePlatformLevel 518)
    onePlatformLevel [] [] ⟨0, 550, 200, 50, none, none⟩ (by decide!) (by decide!) (by decide!)
    (by decide!) (by decide!) (by decide!) (by decide!) (by decide!) (by decide!) (by decide!)
    (by decide!) (by decide!) (by decide!) (by decide!) (by simp) (by simp)
    (by simp [onePlatformLevel])

/-! ## Particles: theorems -/

theorem PushedOnto.refl (a : List Particle) : PushedOnto a a :=
  ⟨[], (List.append_nil a).symm, fun _ h => absurd h (List.not_mem_nil _)⟩

theorem PushedOnto.trans {a b c : List Particle} (h1 : PushedOnto a b) (h2 : PushedOnto b c) :
    PushedOnto a c := by
  obtain ⟨f1, rfl, hf1⟩ := h1
  obtain ⟨f2, rfl, hf2⟩ := h2
  refine ⟨f1 ++ f2, List.append_assoc _ _ _, ?_⟩
  intro q hq
  rcases List.mem_append.mp hq with h | h
  · exact hf1 q h
  · exact hf2 q h

theorem createParticles_pushed (rnd : ℕ → ℚ) (x y : ℚ) (count n : ℕ) (ps : List Particle) :
    PushedOnto ps (createParticles rnd x y count n ps).1 := by
  induction count generalizing n ps with
  | zero => exact PushedOnto.refl ps
  | succ c ih =>
    simp only [createParticles]
    refine PushedOnto.trans ⟨[_], rfl, ?_⟩ (ih _ _)
    intro q hq
    rw [List.mem_singleton] at hq
    rw [hq]

theorem loseLife_pushed (rnd : ℕ → ℚ) (n : ℕ) (s : State) :
    PushedOnto s.particles (loseLife rnd n s).1.particles := by
  have h := createParticles_pushed rnd (s.player.x + s.player.width / 2)
    (s.player.y + s.player.height) 10 n s.particles
  simp only [loseLife]
  split_ifs <;> exact h

theorem playerInput_pushed (inp : Input) (rnd : ℕ → ℚ) (s : State) :
    PushedOnto s.particles (playerInput inp rnd s).1.particles := by
  simp only [playerInput]
  split_ifs
  all_goals first
    | exact PushedOnto.refl _
    | exact createParticles_pushed _ _ _ _ _ _

theorem enemyLoop_pushed (rnd : ℕ → ℚ) (chaos : ℤ) (es : List Enemy) (n : ℕ) (s : State) :
    PushedOnto s.particles (enemyLoop rnd chaos es n s).state.particles := by
  induction es generalizing n s with
  | nil => exact PushedOnto.refl _
  | cons e rest ih =>
    simp only [enemyLoop]
    split_ifs
    · exact PushedOnto.trans (loseLife_pushed _ _ _) (ih _ _)
    · exact ih _ _

theorem afterFallOff_pushed (inp : Input) (rnd : ℕ → ℚ) (level : Level) (s : State) :
    PushedOnto s.particles (afterFallOff inp rnd level s).particles := by
  have h1 : PushedOnto s.particles (afterEnemies inp rnd level s).state.particles :=
    PushedOnto.trans (playerInput_pushed inp rnd s)
      (enemyLoop_pushed rnd level.chaos level.enemies (playerInput inp rnd s).2
        (afterPlatforms inp rnd level s))
  have h2 : (afterPortal inp rnd level s).particles =
      (afterEnemies inp rnd level s).state.particles := by
    simp only [afterPortal]
    split_ifs <;> rfl
  simp only [afterFallOff]
  split_ifs
  · refine PushedOnto.trans ?_ (loseLife_pushed _ _ _)
    rw [h2]; exact h1
  · rw [h2]; exact h1

theorem filter_map_stepParticle (ps : List Particle) :
    (ps.map stepParticle).filter (fun q => q.life > 0) = ps.filterMap (agedParticle 1) := by
  induction ps with
  | nil => rfl
  | cons p rest ih =>
    rw [List.map_cons, List.filterMap_cons]
    by_cases h : (1 : ℤ) < p.life
    · have hs : (stepParticle p).life > 0 := by show p.life - 1 > 0; omega
      have ha : agedParticle 1 p = some (stepParticle p) := by
        simp [agedParticle, stepParticle, h]
      rw [List.filter_cons_of_pos (by simpa using hs), ha, ih]
    · have hs : ¬ (stepParticle p).life > 0 := by show ¬ p.life - 1 > 0; omega
      have ha : agedParticle 1 p = none := by
        simp [agedParticle, h]
      rw [List.filter_cons_of_neg (by simpa using hs), ha, ih]

theorem agedParticle_bind (n m : ℕ) (p : Particle) :
    (agedParticle n p).bind (agedParticle m) = agedParticle (n + m) p := by
  by_cases h : (n : ℤ) < p.life
  · by_cases h2 : ((n + m : ℕ) : ℤ) < p.life
    · have h3 : (m : ℤ) < p.life - n := by push_cast at h2; omega
      simp only [agedParticle, h, h2, h3, if_true, Option.some_bind, Option.some.injEq]
      congr 1
      · push_cast; ring
      · push_cast; ring
      · push_cast; ring
    · have h3 : ¬ (m : ℤ) < p.life - n := by push_cast at h2; omega
      simp only [agedParticle, h, h2, h3, if_true, if_false, Option.some_bind]
  · have h2 : ¬ ((n + m : ℕ) : ℤ) < p.life := by push_cast; omega
    simp only [agedParticle, h, h2, if_false, Option.none_bind]

theorem agedParticle_zero (ps : List Particle) (h : ∀ q ∈ ps, 0 < q.life) :
    ps.filterMap (agedParticle 0) = ps := by
  induction ps with
  | nil => rfl
  | cons p rest ih =>
    have hp : agedParticle 0 p = some p := by
      have := h p (List.mem_cons_self _ _)
      simp [agedParticle, this]
    rw [List.filterMap_cons, hp, ih (fun q hq => h q (List.mem_cons_of_mem _ hq))]

theorem agedParticle_life (n : ℕ) (p q : Particle) (h : agedParticle n p = some q) :
    q.life = p.life - n ∧ 0 < q.life := by
  simp only [agedParticle] at h
  split_ifs at h with hlt
  simp only [Option.some.injEq] at h
  rw [← h]
  exact ⟨rfl, by show 0 < p.life - n; omega⟩

theorem update_particles (inp : Input) (rnd : ℕ → ℚ) (s t : State)
    (hmode : s.gameState = .playing) (h : update inp rnd s = some t) :
    ∃ fresh : List Particle, t.particles = s.particles.filterMap (agedParticle 1) ++ fresh ∧
      ∀ q ∈ fresh, q.life = 29 := by
  cases hlevel : levelAt s.levels s.currentLevel with
  | none => simp [update, hmode, hlevel] at h
  | some level =>
    obtain ⟨t', ht', -, -, -, -, -, -, hps, -⟩ := update_stages inp rnd s level hmode hlevel
    rw [h] at ht'
    cases ht'
    obtain ⟨fresh, hf, hlife⟩ := afterFallOff_pushed inp rnd level s
    refine ⟨fresh.map stepParticle, ?_, ?_⟩
    · rw [hps, hf, List.map_append, List.filter_append, filter_map_stepParticle]
      congr 1
      rw [List.filter_eq_self]
      intro q hq
      obtain ⟨p, hp, rfl⟩ := List.mem_map.mp hq
      have := hlife p hp
      simp [stepParticle, this]
    · intro q hq
      obtain ⟨p, hp, rfl⟩ := List.mem_map.mp hq
      have := hlife p hp
      show p.life - 1 = 29
      omega

theorem updates_particles (steps : List (Input × (ℕ → ℚ))) (s t : State)
    (hrun : updates steps s = some t) (hplay : playingThroughout steps s = true)
    (h0 : 0 < steps.length ∨ ∀ q ∈ s.particles, 0 < q.life) :
    ∃ fresh : List Particle,
      t.particles = s.particles.filterMap (agedParticle steps.length) ++ fresh ∧
      ∀ q ∈ fresh, 30 - (steps.length : ℤ) ≤ q.life ∧ q.life ≤ 29 ∧ 0 < q.life := by
  induction steps generalizing s with
  | nil =>
    simp only [updates, Option.some.injEq] at hrun
    subst hrun
    rcases h0 with h0 | h0
    · exact absurd h0 (by simp)
    · exact ⟨[], by rw [List.length_nil, agedParticle_zero _ h0, List.append_nil],
        fun _ h => absurd h (List.not_mem_nil _)⟩
  | cons step rest ih =>
    simp only [playingThroughout, Bool.and_eq_true, decide_eq_true_eq] at hplay
    obtain ⟨hmode, hplay⟩ := hplay
    simp only [updates] at hrun
    cases hu : update step.1 step.2 s with
    | none => rw [hu] at hrun; simp at hrun
    | some s1 =>
      rw [hu] at hrun hplay
      simp only [Option.some_bind] at hrun
      obtain ⟨f0, hf0, hl0⟩ := update_particles step.1 step.2 s s1 hmode hu
      have hpos : ∀ q ∈ s1.particles, 0 < q.life := by
        intro q hq
        rw [hf0] at hq
        rcases List.mem_append.mp hq with hq | hq
        · obtain ⟨p, -, hp⟩ := List.mem_filterMap.mp hq
          exact (agedParticle_life 1 p q hp).2
        · rw [hl0 q hq]; omega
      obtain ⟨f1, hf1, hl1⟩ := ih s1 hrun hplay (Or.inr hpos)
      refine ⟨f0.filterMap (agedParticle rest.length) ++ f1, ?_, ?_⟩
      · rw [hf1, hf0, List.filterMap_append, List.filterMap_filterMap, List.append_assoc]
        congr 1
        apply List.filterMap_congr
        intro p _
        rw [agedParticle_bind, List.length_cons, Nat.add_comm]
      · intro q hq
        rw [List.length_cons]
        push_cast
        rcases List.mem_append.mp hq with hq | hq
        · obtain ⟨p, hp, hpq⟩ := List.mem_filterMap.mp hq
          obtain ⟨h1, h2⟩ := agedParticle_life _ p q hpq
          have := hl0 p hp
          refine ⟨by omega, by omega, h2⟩
        · obtain ⟨h1, h2, h3⟩ := hl1 q hq
          exact ⟨by omega, h2, h3⟩

/-- C11: over n ≥ 1 consecutive `update()` calls, each started in mode `playing`,
the particle list ends as the particles it had before the first call, each with
lifetime L > n kept in place with lifetime L - n and position advanced n times by
its velocity and each with L ≤ n gone, followed by the particles pushed during
the run (lifetime between 30 - n and 29); after the run every particle in the
list has lifetime > 0. A particle of lifetime 30 is thus still listed after 29
calls and gone after the 30th. -/
theorem particle_lifetime (steps : List (Input × (ℕ → ℚ))) (s t : State)
    (hrun : updates steps s = some t) (hplay : playingThroughout steps s = true)
    (hn : 0 < steps.length) :
    (∃ fresh : List Particle,
      t.particles = s.particles.filterMap (agedParticle steps.length) ++ fresh ∧
      ∀ q ∈ fresh, 30 - (steps.length : ℤ) ≤ q.life ∧ q.life ≤ 29) ∧
    (∀ q ∈ t.particles, 0 < q.life) ∧
    (∀ p : Particle, p.life = 30 →
      (agedParticle 29 p).isSome = true ∧ agedParticle 30 p = none) := by
  obtain ⟨fresh, hf, hl⟩ := updates_particles steps s t hrun hplay (Or.inl hn)
  refine ⟨⟨fresh, hf, fun q hq => ⟨(hl q hq).1, (hl q hq).2.1⟩⟩, ?_, ?_⟩
  · intro q hq
    rw [hf] at hq
    rcases List.mem_append.mp hq with hq | hq
    · obtain ⟨p, -, hp⟩ := List.mem_filterMap.mp hq
      exact (agedParticle_life _ p q hp).2
    · exact (hl q hq).2.2
  · intro p hp
    simp [agedParticle, hp]

theorem particle_lifetime_witness :
    (∃ fresh : List Particle,
      ((updates thirtyIdleFrames oneParticleState).getD oneParticleState).particles =
        oneParticleState.particles.filterMap (agedParticle thirtyIdleFrames.length) ++ fresh ∧
      ∀ q ∈ fresh, 30 - (thirtyIdleFrames.length : ℤ) ≤ q.life ∧ q.life ≤ 29) ∧
    (∀ q ∈ ((updates thirtyIdleFrames oneParticleState).getD oneParticleState).particles,
      0 < q.life) ∧
    (∀ p : Particle, p.life = 30 →
      (agedParticle 29 p).isSome = true ∧ agedParticle 30 p = none) :=
  particle_lifetime thirtyIdleFrames oneParticleState
    ((updates thirtyIdleFrames oneParticleState).getD oneParticleState)
    (by decide!) (by decide!) (by decide!)

/-! ## Enemy patrol -/

theorem enemyMove_nearCanvas (rnd : ℕ → ℚ) (chaos : ℤ) (e : Enemy) (n : ℕ) (a w : ℚ)
    (hch : chaos = 0) (h : e.nearCanvas a w) :
    (enemyMove rnd chaos e n).1.nearCanvas a w := by
  obtain ⟨hw, hab, hlo, hhi, hl, hr⟩ := h
  have hnc : ¬ chaos > 0 := by omega
  have hlo' : -a ≤ e.x + e.vx := by
    rcases abs_cases e.vx with ⟨habs, hsign⟩ | ⟨habs, hsign⟩
    · linarith
    · have : 0 ≤ e.x := by
        by_contra hneg
        linarith [hl (not_le.mp hneg)]
      linarith
  have hhi' : e.x + e.vx ≤ CANVAS_WIDTH - w + a := by
    rcases abs_cases e.vx with ⟨habs, hsign⟩ | ⟨habs, hsign⟩
    · have : e.x ≤ CANVAS_WIDTH - w := by
        by_contra hgt
        linarith [hr (not_le.mp hgt)]
      linarith
    · linarith
  have hneg' : e.x + e.vx < 0 → e.vx < 0 := by
    intro hx
    rcases abs_cases e.vx with ⟨habs, hsign⟩ | ⟨habs, hsign⟩
    · linarith
    · exact hsign
  have hpos' : CANVAS_WIDTH - w < e.x + e.vx → 0 < e.vx := by
    intro hx
    rcases abs_cases e.vx with ⟨habs, hsign⟩ | ⟨habs, hsign⟩
    · rcases hsign.lt_or_eq with h0 | h0
      · exact h0
      · have : e.x ≤ CANVAS_WIDTH - w := by
          by_contra hgt
          linarith [hr (not_le.mp hgt)]
        linarith
    · linarith
  simp only [enemyMove, hnc, if_false, hw]
  by_cases hb : e.x + e.vx < 0 ∨ e.x + e.vx > CANVAS_WIDTH - w
  · rw [if_pos hb]
    refine ⟨rfl, ?_, hlo', hhi', ?_, ?_⟩
    · show |e.vx * -1| = a
      rw [mul_neg_one, abs_neg]; exact hab
    · intro hx
      show 0 < e.vx * -1
      linarith [hneg' hx]
    · intro hx
      show e.vx * -1 < 0
      linarith [hpos' hx]
  · rw [if_neg hb]
    rw [not_or] at hb
    refine ⟨rfl, hab, hlo', hhi', ?_, ?_⟩
    · intro hx; exact absurd hx hb.1
    · intro hx; exact absurd hx hb.2

theorem enemyLoop_enemies (rnd : ℕ → ℚ) (chaos : ℤ) (es : List Enemy) (n : ℕ) (s : State)
    (j : ℕ) (e : Enemy) (he : es[j]? = some e) :
    ∃ m, (enemyLoop rnd chaos es n s).enemies[j]? = some (enemyMove rnd chaos e m).1 := by
  induction es generalizing n s j with
  | nil => simp at he
  | cons e0 rest ih =>
    simp only [enemyLoop]
    cases j with
    | zero =>
      simp only [List.getElem?_cons_zero, Option.some.injEq] at he ⊢
      exact ⟨n, by rw [he]⟩
    | succ k =>
      simp only [List.getElem?_cons_succ] at he ⊢
      exact ih _ _ k he

theorem update_enemy_nearCanvas (inp : Input) (rnd : ℕ → ℚ) (s t : State) (i j : ℕ)
    (lv : Level) (e : Enemy) (a w : ℚ)
    (h : update inp rnd s = some t) (hlv : s.levels[i]? = some lv) (hch : lv.chaos = 0)
    (he : lv.enemies[j]? = some e) (hinv : e.nearCanvas a w) :
    ∃ lv' e', t.levels[i]? = some lv' ∧ lv'.chaos = 0 ∧ lv'.enemies[j]? = some e' ∧
      e'.nearCanvas a w := by
  by_cases hmode : s.gameState = .playing
  · cases hlevel : levelAt s.levels s.currentLevel with
    | none => simp [update, hmode, hlevel] at h
    | some level =>
      obtain ⟨t', ht', -, -, -, -, -, -, -, hlevels⟩ :=
        update_stages inp rnd s level hmode hlevel
      rw [h] at ht'
      cases ht'
      have hidx : s.levels[(s.currentLevel - 1).toNat]? = some level := by
        simp only [levelAt] at hlevel
        split_ifs at hlevel
        rw [← hlevel, List.get?_eq_getElem?]
      by_cases hi : (s.currentLevel - 1).toNat = i
      · rw [hi] at hidx hlevels
        have hsame : level = lv := by
          rw [hidx] at hlv
          exact Option.some.inj hlv
        subst hsame
        have hlt : i < s.levels.length := by
          by_contra hge
          rw [List.getElem?_eq_none (not_lt.mp hge)] at hidx
          exact absurd hidx (by simp)
        obtain ⟨m, hm⟩ := enemyLoop_enemies rnd level.chaos level.enemies
          (playerInput inp rnd s).2 (afterPlatforms inp rnd level s) j e he
        rw [hlevels, List.getElem?_set_self hlt]
        exact ⟨_, (enemyMove rnd level.chaos e m).1, rfl, hch, hm,
          enemyMove_nearCanvas rnd level.chaos e m a w hch hinv⟩
      · refine ⟨lv, e, ?_, hch, he, hinv⟩
        rw [hlevels, List.getElem?_set_ne hi]
        exact hlv
  · simp only [update, hmode, ne_eq, not_false_eq_true, if_true, Option.some.injEq] at h
    rw [← h]
    exact ⟨lv, e, hlv, hch, he, hinv⟩

theorem updates_enemy_nearCanvas (steps : List (Input × (ℕ → ℚ))) (s t : State) (i j : ℕ)
    (lv : Level) (e : Enemy) (a w : ℚ)
    (h : updates steps s = some t) (hlv : s.levels[i]? = some lv) (hch : lv.chaos = 0)
    (he : lv.enemies[j]? = some e) (hinv : e.nearCanvas a w) :
    ∃ lv' e', t.levels[i]? = some lv' ∧ lv'.chaos = 0 ∧ lv'.enemies[j]? = some e' ∧
      e'.nearCanvas a w := by
  induction steps generalizing s lv e with
  | nil =>
    simp only [updates, Option.some.injEq] at h
    rw [← h]
    exact ⟨lv, e, hlv, hch, he, hinv⟩
  | cons step rest ih =>
    simp only [updates] at h
    cases hu : update step.1 step.2 s with
    | none => rw [hu] at h; simp at h
    | some s1 =>
      rw [hu] at h
      simp only [Option.some_bind] at h
      obtain ⟨lv1, e1, h1, h2, h3, h4⟩ :=
        update_enemy_nearCanvas step.1 step.2 s s1 i j lv e a w hu hlv hch he hinv
      exact ih s1 lv1 e1 h h1 h2 h3 h4

/-- C19: in a level with chaos = 0, an enemy with 0 ≤ x ≤ CANVAS_WIDTH - width
keeps, after any number of `update()` calls (any inputs and random streams), its
width and its speed |vx|, stays within -|vx| ≤ x ≤ CANVAS_WIDTH - width + |vx|,
and whenever its x is outside [0, CANVAS_WIDTH - width] its velocity points back
towards the canvas; the level keeps chaos = 0. The bound
|vx| ≤ CANVAS_WIDTH - width of the claim is not needed. -/
theorem enemy_stays_near_canvas (steps : List (Input × (ℕ → ℚ))) (s t : State) (i j : ℕ)
    (lv : Level) (e : Enemy)
    (hrun : updates steps s = some t) (hlv : s.levels[i]? = some lv) (hch : lv.chaos = 0)
    (he : lv.enemies[j]? = some e) (h0 : 0 ≤ e.x) (h1 : e.x ≤ CANVAS_WIDTH - e.width) :
    ∃ lv' e', t.levels[i]? = some lv' ∧ lv'.chaos = 0 ∧ lv'.enemies[j]? = some e' ∧
      e'.width = e.width ∧ |e'.vx| = |e.vx| ∧
      -|e.vx| ≤ e'.x ∧ e'.x ≤ CANVAS_WIDTH - e.width + |e.vx| ∧
      (e'.x < 0 → 0 < e'.vx) ∧ (CANVAS_WIDTH - e.width < e'.x → e'.vx < 0) := by
  have hinv : e.nearCanvas |e.vx| e.width :=
    ⟨rfl, rfl, by linarith [abs_nonneg e.vx], by linarith [abs_nonneg e.vx],
      fun hx => absurd hx (not_lt.mpr h0), fun hx => absurd hx (not_lt.mpr h1)⟩
  obtain ⟨lv', e', h1', h2', h3', h4'⟩ :=
    updates_enemy_nearCanvas steps s t i j lv e |e.vx| e.width hrun hlv hch he hinv
  exact ⟨lv', e', h1', h2', h3', h4'⟩

theorem enemy_stays_near_canvas_witness :
    ∃ lv' e', ((updates (thirtyIdleFrames.take 3) edgeEnemyState).getD edgeEnemyState).levels[0]? =
        some lv' ∧ lv'.chaos = 0 ∧ lv'.enemies[0]? = some e' ∧
      e'.width = (Enemy.mk 768 400 32 32 1).width ∧ |e'.vx| = |(Enemy.mk 768 400 32 32 1).vx| ∧
      -|(Enemy.mk 768 400 32 32 1).vx| ≤ e'.x ∧
      e'.x ≤ CANVAS_WIDTH - (Enemy.mk 768 400 32 32 1).width + |(Enemy.mk 768 400 32 32 1).vx| ∧
      (e'.x < 0 → 0 < e'.vx) ∧
      (CANVAS_WIDTH - (Enemy.mk 768 400 32 32 1).width < e'.x → e'.vx < 0) :=
  enemy_stays_near_canvas (thirtyIdleFrames.take 3) edgeEnemyState
    ((updates (thirtyIdleFrames.take 3) edgeEnemyState).getD edgeEnemyState) 0 0 edgeEnemyLevel
    ⟨768, 400, 32, 32, 1⟩ (by decide!) (by decide!) (by decide!) (by decide!) (by decide!)
    (by decide!)

end MarioGame
